import Mathlib

/-!
# DigisparkKeyboard: a shallow embedding of `DigiKeyboard.h`

The HID keyboard emulation layer of
`digistump-avr/libraries/DigisparkKeyboard/DigiKeyboard.h`, written as Lean
functions over an explicit device state.

* Bytes (`uint8_t`, `byte`, `uchar`) are natural numbers reduced `% 256`
  wherever the C code stores into an 8-bit object.
* The collaborators of `usbdrv.h` and `Arduino.h` (`usbPoll`,
  `usbSetInterrupt`, `digitalWrite`, ...) have no body in this header; every
  call to one of them is recorded, in program order, in the `trace` of the
  device state.  The two collaborators that return a value
  (`usbInterruptIsReady`, `millis`) are answered by an environment `Env`,
  which also holds the program memory that lies behind the key table.
* The constants of `keylayouts.h` and `usbdrv.h` are parameters
  (`KeyLayout`, `UsbDrv`).  A read of program memory
  (`pgm_read_byte_near`) is recorded in the trace with the offset from
  `keycodes_ascii` at which it reads.
* The two `while` loops may run for ever, so they take a bound on their
  number of iterations and return `none` when the bound is exhausted.
-/

namespace DigisparkKeyboard

/-! ## Collaborators -/

/-- One call to a collaborator of the header, as seen from outside. -/
inductive Event where
  | noInterrupts
  | usbDeviceDisconnect
  | delay_ms (ms : Nat)
  | usbDeviceConnect
  | usbInit
  | interrupts
  | usbSetInterrupt (data : List Nat) (len : Nat)
  | usbPoll
  | usbInterruptIsReady (result : Bool)
  | millis (result : Nat)
  | pgm_read_byte_near (offset : Nat)
  | pinMode_LED_BUILTIN_OUTPUT
  | digitalWrite_LED_BUILTIN (high : Bool)
  deriving DecidableEq, Repr

/-- The answers of the value-returning collaborators: the result of the
`i`-th call of `usbInterruptIsReady()` and of the `i`-th call of `millis()`
(counted from 0 over the whole run), and the byte of program memory found
`i` bytes past the end of the table `keycodes_ascii`. -/
structure Env where
  usbInterruptIsReady : Nat → Bool
  millis : Nat → Nat
  flashAfterTable : Nat → Nat

/-- Target of the driver global `usbMsgPtr`. -/
inductive MsgPtr where
  | unset
  | reportBuffer
  deriving DecidableEq, Repr

/-- The mutable state: the members of `DigiKeyboardDevice`
(`sUseFeedbackLed`, `reportBuffer`), the file-level `idleRate`, the driver
global `usbMsgPtr`, the number of answers already taken from the
environment, and the collaborator calls made so far. -/
structure Device where
  sUseFeedbackLed : Bool
  reportBuffer : List Nat
  idleRate : Nat
  usbMsgPtr : MsgPtr
  readyChecks : Nat
  clockReads : Nat
  trace : List Event
  deriving DecidableEq, Repr

/-- Value of `sizeof(reportBuffer)` for `uchar reportBuffer[8]`. -/
def sizeofReportBuffer : Nat := 8

/-- C `memset(buf, c, n)` on a byte array: the first `n` bytes become `c`. -/
def memset (buf : List Nat) (c n : Nat) : List Nat :=
  List.replicate n (c % 256) ++ buf.drop n

/-! ## Sending reports -/

/-- The loop `while (!usbInterruptIsReady()) { usbPoll(); _delay_ms(5); }`
of `sendKeyPress`, run for at most `fuel` evaluations of its condition. -/
def waitForInterruptReady (E : Env) : Nat → Device → Option Device
  | 0, _ => none
  | fuel + 1, s =>
    let r := E.usbInterruptIsReady s.readyChecks
    let s1 := { s with readyChecks := s.readyChecks + 1,
                       trace := s.trace ++ [Event.usbInterruptIsReady r] }
    if !r then
      waitForInterruptReady E fuel
        { s1 with trace := s1.trace ++ [Event.usbPoll, Event.delay_ms 5] }
    else
      some s1

/-- The body of `sendKeyPress(byte, byte)` after its loop: clear the buffer,
store modifiers, reserved byte and first key, hand the buffer to the driver. -/
def fillAndSubmit (keyPress modifiers : Nat) (s : Device) : Device :=
  let buf := memset s.reportBuffer 0 sizeofReportBuffer
  let buf := buf.set 0 (modifiers % 256)
  let buf := buf.set 1 0
  let buf := buf.set 2 (keyPress % 256)
  { s with reportBuffer := buf,
           trace := s.trace ++ [Event.usbSetInterrupt buf sizeofReportBuffer] }

/-- `void sendKeyPress(byte keyPress, byte modifiers)`. -/
def sendKeyPress_2 (E : Env) (fuel : Nat) (keyPress modifiers : Nat) (s : Device) :
    Option Device :=
  (waitForInterruptReady E fuel s).map (fillAndSubmit keyPress modifiers)

/-- `void sendKeyPress(byte keyPress)`. -/
def sendKeyPress_1 (E : Env) (fuel : Nat) (keyPress : Nat) (s : Device) : Option Device :=
  sendKeyPress_2 E fuel keyPress 0 s

/-- `void sendKeyStroke(byte keyStroke, byte modifiers, bool aUseFeedbackLed)`. -/
def sendKeyStroke_3 (E : Env) (fuel : Nat) (keyStroke modifiers : Nat)
    (aUseFeedbackLed : Bool) (s : Device) : Option Device :=
  let s1 := if aUseFeedbackLed then
      { s with trace := s.trace ++ [Event.digitalWrite_LED_BUILTIN true] }
    else s
  match sendKeyPress_2 E fuel keyStroke modifiers s1 with
  | none => none
  | some s2 =>
    match sendKeyPress_2 E fuel 0 0 s2 with
    | none => none
    | some s3 =>
      some (if aUseFeedbackLed then
          { s3 with trace := s3.trace ++ [Event.digitalWrite_LED_BUILTIN false] }
        else s3)

/-- `void sendKeyStroke(byte keyStroke, byte modifiers)`. -/
def sendKeyStroke_2 (E : Env) (fuel : Nat) (keyStroke modifiers : Nat) (s : Device) :
    Option Device :=
  sendKeyStroke_3 E fuel keyStroke modifiers false s

/-- `void sendKeyStroke(byte keyStroke)`. -/
def sendKeyStroke_1 (E : Env) (fuel : Nat) (keyStroke : Nat) (s : Device) : Option Device :=
  sendKeyStroke_2 E fuel keyStroke 0 s

/-- `void enableLEDFeedback()`. -/
def enableLEDFeedback (s : Device) : Device :=
  { s with sUseFeedbackLed := true,
           trace := s.trace ++ [Event.pinMode_LED_BUILTIN_OUTPUT] }

/-- `void disableLEDFeedback()`. -/
def disableLEDFeedback (s : Device) : Device :=
  { s with sUseFeedbackLed := false }

/-- `void update()`. -/
def update (s : Device) : Device :=
  { s with trace := s.trace ++ [Event.usbPoll] }

/-! ## Key layout -/

/-- The constants and the table that `DigiKeyboard.h` takes from
`keylayouts.h`.  The three flag masks are tested with `#ifdef`, so each may
be absent.  `keycodes_ascii` is the table in program memory. -/
structure KeyLayout where
  SHIFT_MASK : Option Nat
  ALTGR_MASK : Option Nat
  RCTRL_MASK : Option Nat
  MODIFIERKEY_SHIFT : Nat
  MODIFIERKEY_RIGHT_ALT : Nat
  MODIFIERKEY_RIGHT_CTRL : Nat
  KEYCODE_MASK_SCANCODE : Nat
  KEY_NON_US_BS_MAPPING : Nat
  KEY_NON_US_BS : Nat
  KEY_BACKSPACE : Nat
  KEY_TAB : Nat
  KEY_ENTER : Nat
  keycodes_ascii : List Nat

/-- The byte that `pgm_read_byte_near(keycodes_ascii + offset)` yields: the
table entry, or the byte behind the table when `offset` is past its end. -/
def pgm_read_byte_near (L : KeyLayout) (E : Env) (offset : Nat) : Nat :=
  match L.keycodes_ascii[offset]? with
  | some e => e % 256
  | none => E.flashAfterTable (offset - L.keycodes_ascii.length) % 256

/-- One guarded statement of `keycode_to_modifier`:
`#ifdef MASK  if (keycode & MASK) modifier |= BIT;  #endif`. -/
def orModifierIfFlag (mask : Option Nat) (bit keycode modifier : Nat) : Nat :=
  match mask with
  | some mk => if keycode &&& mk ≠ 0 then (modifier ||| bit) % 256 else modifier
  | none => modifier

/-- `uint8_t keycode_to_modifier(uint8_t keycode)`. -/
def keycode_to_modifier (L : KeyLayout) (keycode : Nat) : Nat :=
  let keycode := keycode % 256
  let modifier := 0
  let modifier := orModifierIfFlag L.SHIFT_MASK L.MODIFIERKEY_SHIFT keycode modifier
  let modifier := orModifierIfFlag L.ALTGR_MASK L.MODIFIERKEY_RIGHT_ALT keycode modifier
  let modifier := orModifierIfFlag L.RCTRL_MASK L.MODIFIERKEY_RIGHT_CTRL keycode modifier
  modifier

/-- `uint8_t keycode_to_key(uint8_t keycode)`. -/
def keycode_to_key (L : KeyLayout) (keycode : Nat) : Nat :=
  let keycode := keycode % 256
  let key := (keycode &&& L.KEYCODE_MASK_SCANCODE) % 256
  if key = L.KEY_NON_US_BS_MAPPING then L.KEY_NON_US_BS % 256 else key

/-- The first half of `write`: the value of `data` when the `if` chain is
left, and the state after the program-memory read that the last branch
makes.  `'\b' = 8`, `'\t' = 9`, `'\n' = 10`, `'\r' = 13`. -/
def writeData (L : KeyLayout) (E : Env) (chr : Nat) (s : Device) : Nat × Device :=
  let chr := chr % 256
  if chr = 8 then (L.KEY_BACKSPACE % 256, s)
  else if chr = 9 then (L.KEY_TAB % 256, s)
  else if chr = 10 ∨ chr = 13 then (L.KEY_ENTER % 256, s)
  else if chr ≥ 0x20 then
    (pgm_read_byte_near L E (chr - 0x20),
     { s with trace := s.trace ++ [Event.pgm_read_byte_near (chr - 0x20)] })
  else (0, s)

/-- `size_t write(uint8_t chr)`: the final state and the returned count. -/
def write (L : KeyLayout) (E : Env) (fuel : Nat) (chr : Nat) (s : Device) :
    Option (Device × Nat) :=
  let (data, s1) := writeData L E chr s
  if data ≠ 0 then
    match sendKeyStroke_3 E fuel (keycode_to_key L data) (keycode_to_modifier L data)
        s1.sUseFeedbackLed s1 with
    | none => none
    | some s2 => some (s2, 1)
  else
    some (s1, 1)

/-! ## Construction, delay, setup requests -/

/-- The constructor `DigiKeyboardDevice()`, run on an object whose
`reportBuffer` holds the bytes `raw` before the `memset`; `idleRate` is a
zero-initialised static. -/
def DigiKeyboardDevice (raw : List Nat) : Device :=
  let buf := memset raw 0 sizeofReportBuffer
  { sUseFeedbackLed := false,
    reportBuffer := buf,
    idleRate := 0,
    usbMsgPtr := MsgPtr.unset,
    readyChecks := 0,
    clockReads := 0,
    trace := [Event.noInterrupts, Event.usbDeviceDisconnect, Event.delay_ms 250,
              Event.usbDeviceConnect, Event.usbInit, Event.interrupts,
              Event.usbSetInterrupt buf sizeofReportBuffer] }

/-- Conversion of a 32-bit `unsigned long` to `long` (two's complement). -/
def toLong (u : Nat) : Int :=
  if u % 2 ^ 32 < 2 ^ 31 then (u % 2 ^ 32 : Nat) else ((u % 2 ^ 32 : Nat) : Int) - 2 ^ 32

/-- Conversion of a `long` to 32-bit `unsigned long`. -/
def toULong (i : Int) : Nat :=
  (i % 2 ^ 32).toNat

/-- The loop of `delay`, run for at most `fuel` evaluations of its
condition; `milli` is a `long`, `last` an `unsigned long`. -/
def delayLoop (E : Env) : Nat → Int → Nat → Device → Option Device
  | 0, _, _, _ => none
  | fuel + 1, milli, last, s =>
    if milli > 0 then
      let now := E.millis s.clockReads % 2 ^ 32
      let s1 := { s with clockReads := s.clockReads + 1,
                         trace := s.trace ++ [Event.millis now] }
      let elapsed := (now + 2 ^ 32 - last) % 2 ^ 32
      let milli := toLong ((toULong milli + 2 ^ 32 - elapsed) % 2 ^ 32)
      delayLoop E fuel milli now (update s1)
    else
      some s

/-- `void delay(long milli)`. -/
def delay (E : Env) (fuel : Nat) (milli : Int) (s : Device) : Option Device :=
  let last := E.millis s.clockReads % 2 ^ 32
  let s1 := { s with clockReads := s.clockReads + 1,
                     trace := s.trace ++ [Event.millis last] }
  delayLoop E fuel (toLong (toULong milli)) last s1

/-- The request constants that `usbFunctionSetup` takes from `usbdrv.h`. -/
structure UsbDrv where
  USBRQ_TYPE_MASK : Nat
  USBRQ_TYPE_CLASS : Nat
  USBRQ_HID_GET_REPORT : Nat
  USBRQ_HID_GET_IDLE : Nat
  USBRQ_HID_SET_IDLE : Nat

/-- `uchar usbFunctionSetup(uchar data[8])`: the state afterwards and the
returned length.  `usbRequest_t` overlays the packet: `bmRequestType` is
byte 0, `bRequest` byte 1 and `wValue.bytes[1]` byte 3. -/
def usbFunctionSetup (U : UsbDrv) (data : List Nat) (s : Device) : Device × Nat :=
  let bmRequestType := data.getD 0 0 % 256
  let bRequest := data.getD 1 0 % 256
  let wValue_bytes_1 := data.getD 3 0 % 256
  let s := { s with usbMsgPtr := MsgPtr.reportBuffer }
  if bmRequestType &&& U.USBRQ_TYPE_MASK = U.USBRQ_TYPE_CLASS then
    if bRequest = U.USBRQ_HID_GET_REPORT then (s, 0)
    else if bRequest = U.USBRQ_HID_GET_IDLE then (s, 0)
    else if bRequest = U.USBRQ_HID_SET_IDLE then ({ s with idleRate := wValue_bytes_1 }, 0)
    else (s, 0)
  else (s, 0)

/-! ## Report descriptor -/

/-- The initialisers of `usbHidReportDescriptor`, in source order. -/
def usbHidReportDescriptor : List Nat :=
  [0x05, 0x01,
   0x09, 0x06,
   0xa1, 0x01,
   0x05, 0x07,
   0x19, 0xe0,
   0x29, 0xe7,
   0x15, 0x00,
   0x25, 0x01,
   0x75, 0x01,
   0x95, 0x08,
   0x81, 0x02,
   0x75, 0x08,
   0x95, 0x01,
   0x81, 0x01,
   0x75, 0x08,
   0x95, 0x06,
   0x15, 0x00,
   0x25, 0x65,
   0x05, 0x07,
   0x19, 0x00,
   0x29, 0x65,
   0x81, 0x00,
   0x75, 0x01,
   0x95, 0x05,
   0x05, 0x08,
   0x19, 0x01,
   0x29, 0x05,
   0x91, 0x02,
   0x75, 0x03,
   0x95, 0x01,
   0x91, 0x01,
   0xc0]

/-- A short item of the HID report descriptor grammar (HID 1.11, 6.2.2.2):
the prefix byte holds the tag in bits 7..4, the type in bits 3..2 and the
size code in bits 1..0; `data` is the little-endian value of the data bytes. -/
structure HidItem where
  type : Nat
  tag : Nat
  size : Nat
  data : Nat
  deriving DecidableEq, Repr

/-- Little-endian value of a byte string. -/
def littleEndian : List Nat → Nat
  | [] => 0
  | b :: bs => b % 256 + 256 * littleEndian bs

/-- Number of data bytes announced by the size code of a prefix byte. -/
def hidDataSize (prefixByte : Nat) : Nat :=
  match prefixByte % 4 with
  | 0 => 0
  | 1 => 1
  | 2 => 2
  | _ => 4

/-- Split a descriptor into short items; `none` on a long item (prefix
`0xFE`), on a truncated item, or when `fuel` items do not exhaust the bytes. -/
def hidItems : Nat → List Nat → Option (List HidItem)
  | _, [] => some []
  | 0, _ :: _ => none
  | fuel + 1, p :: rest =>
    let n := hidDataSize p
    if p = 0xFE then none
    else if rest.length < n then none
    else
      match hidItems fuel (rest.drop n) with
      | none => none
      | some items =>
        some ({ type := p / 4 % 4, tag := p / 16 % 16, size := n,
                data := littleEndian (rest.take n) } :: items)

/-- Signed reading of the data of an item of `size` bytes. -/
def hidSigned (size data : Nat) : Int :=
  if size = 0 then 0
  else if data < 2 ^ (8 * size - 1) then (data : Int) else (data : Int) - 2 ^ (8 * size)

/-- The item state table of a descriptor parser: the global items that
matter for the report layout, and the local usage range. -/
structure HidState where
  usagePage : Nat
  logicalMinimum : Int
  logicalMaximum : Int
  reportSize : Nat
  reportCount : Nat
  usageMinimum : Option Nat
  usageMaximum : Option Nat
  deriving DecidableEq, Repr

/-- A field declared by an Input or Output main item. -/
structure HidField where
  isOutput : Bool
  flags : Nat
  usagePage : Nat
  usageMinimum : Option Nat
  usageMaximum : Option Nat
  logicalMinimum : Int
  logicalMaximum : Int
  reportSize : Nat
  reportCount : Nat
  deriving DecidableEq, Repr

/-- The field that a main item declares in the current item state. -/
def HidState.field (st : HidState) (isOutput : Bool) (flags : Nat) : HidField :=
  { isOutput := isOutput, flags := flags, usagePage := st.usagePage,
    usageMinimum := st.usageMinimum, usageMaximum := st.usageMaximum,
    logicalMinimum := st.logicalMinimum, logicalMaximum := st.logicalMaximum,
    reportSize := st.reportSize, reportCount := st.reportCount }

/-- The item state after a main item: local items are forgotten. -/
def HidState.clearLocals (st : HidState) : HidState :=
  { st with usageMinimum := none, usageMaximum := none }

/-- Run the items through the item state table and collect the declared
fields.  Main items (type 0): Input is tag 8, Output tag 9.  Global items
(type 1): Usage Page 0, Logical Minimum 1, Logical Maximum 2, Report Size 7,
Report Count 9.  Local items (type 2): Usage Minimum 1, Usage Maximum 2. -/
def hidFields : HidState → List HidItem → List HidField
  | _, [] => []
  | st, it :: its =>
    if it.type = 0 then
      if it.tag = 8 then st.field false it.data :: hidFields st.clearLocals its
      else if it.tag = 9 then st.field true it.data :: hidFields st.clearLocals its
      else hidFields st.clearLocals its
    else if it.type = 1 then
      if it.tag = 0 then hidFields { st with usagePage := it.data } its
      else if it.tag = 1 then
        hidFields { st with logicalMinimum := hidSigned it.size it.data } its
      else if it.tag = 2 then
        hidFields { st with logicalMaximum := hidSigned it.size it.data } its
      else if it.tag = 7 then hidFields { st with reportSize := it.data } its
      else if it.tag = 9 then hidFields { st with reportCount := it.data } its
      else hidFields st its
    else if it.type = 2 then
      if it.tag = 1 then hidFields { st with usageMinimum := some it.data } its
      else if it.tag = 2 then hidFields { st with usageMaximum := some it.data } its
      else hidFields st its
    else hidFields st its

/-- The item state at the start of a descriptor. -/
def HidState.initial : HidState :=
  { usagePage := 0, logicalMinimum := 0, logicalMaximum := 0, reportSize := 0,
    reportCount := 0, usageMinimum := none, usageMaximum := none }

/-- The fields declared by a descriptor, `none` if it is not a sequence of
short items. -/
def descriptorFields (d : List Nat) : Option (List HidField) :=
  (hidItems d.length d).map (hidFields HidState.initial)

/-- Total number of bits, report size times report count, over the fields. -/
def fieldBits (fs : List HidField) : Nat :=
  (fs.map (fun f => f.reportSize * f.reportCount)).sum

/-! ## Projections of a trace -/

/-- The reports handed to `usbSetInterrupt`, with their lengths, in order. -/
def reports : List Event → List (List Nat × Nat)
  | [] => []
  | Event.usbSetInterrupt data len :: es => (data, len) :: reports es
  | _ :: es => reports es

/-- The number of `usbPoll()` calls. -/
def polls : List Event → Nat
  | [] => 0
  | Event.usbPoll :: es => polls es + 1
  | _ :: es => polls es

/-- What the host and the user can observe of a keystroke: the indicator
writes and the report submissions, in order. -/
def effects : List Event → List Event
  | [] => []
  | Event.usbSetInterrupt data len :: es => Event.usbSetInterrupt data len :: effects es
  | Event.digitalWrite_LED_BUILTIN h :: es => Event.digitalWrite_LED_BUILTIN h :: effects es
  | _ :: es => effects es

/-- The offsets from `keycodes_ascii` at which program memory was read. -/
def tableReads : List Event → List Nat
  | [] => []
  | Event.pgm_read_byte_near offset :: es => offset :: tableReads es
  | _ :: es => tableReads es

/-- The all-zero 8-byte report. -/
def idleReport : List Nat := [0, 0, 0, 0, 0, 0, 0, 0]

/-- The key-down report for a keycode and a modifier mask. -/
def keyDownReport (k m : Nat) : List Nat := [m, 0, k, 0, 0, 0, 0, 0]

/-- After a readiness check is answered at index `c`, the driver is not
ready for `n` checks and ready at the next one. -/
def ReadyAfter (E : Env) (c n : Nat) : Prop :=
  (∀ i, i < n → E.usbInterruptIsReady (c + i) = false) ∧ E.usbInterruptIsReady (c + n) = true

instance (E : Env) (c n : Nat) : Decidable (ReadyAfter E c n) := by
  unfold ReadyAfter
  infer_instance

/-- The events of `n` rounds of the waiting loop that find the driver busy. -/
def busyRounds : Nat → List Event
  | 0 => []
  | n + 1 => [Event.usbInterruptIsReady false, Event.usbPoll, Event.delay_ms 5] ++ busyRounds n

/-! ## Result states -/

/-- The state in which the waiting loop ends after `n` busy rounds. -/
def afterWait (s : Device) (n : Nat) : Device :=
  { s with readyChecks := s.readyChecks + n + 1,
           trace := s.trace ++ busyRounds n ++ [Event.usbInterruptIsReady true] }

/-- The state that `sendKeyPress(k, m)` leaves when it found the driver busy
`n` times. -/
def afterPress (s : Device) (k m n : Nat) : Device :=
  { s with readyChecks := s.readyChecks + n + 1,
           reportBuffer := keyDownReport (k % 256) (m % 256),
           trace := s.trace ++ busyRounds n ++
             [Event.usbInterruptIsReady true,
              Event.usbSetInterrupt (keyDownReport (k % 256) (m % 256)) 8] }

/-- The indicator write that brackets a keystroke, if feedback is asked for. -/
def ledEvent (aUseFeedbackLed high : Bool) : List Event :=
  if aUseFeedbackLed then [Event.digitalWrite_LED_BUILTIN high] else []

/-- The state that `sendKeyStroke(k, m, led)` leaves when the driver was busy
`n1` times before the key-down report and `n2` times before the release. -/
def afterStroke (s : Device) (k m : Nat) (led : Bool) (n1 n2 : Nat) : Device :=
  { s with readyChecks := s.readyChecks + n1 + 1 + n2 + 1,
           reportBuffer := idleReport,
           trace := s.trace ++ (ledEvent led true ++ busyRounds n1 ++
             [Event.usbInterruptIsReady true,
              Event.usbSetInterrupt (keyDownReport (k % 256) (m % 256)) 8] ++
             busyRounds n2 ++
             [Event.usbInterruptIsReady true, Event.usbSetInterrupt idleReport 8] ++
             ledEvent led false) }

/-- The program-memory read that `write(chr)` makes, if any. -/
def tableReadEvents (chr : Nat) : List Event :=
  if chr % 256 = 8 then []
  else if chr % 256 = 9 then []
  else if chr % 256 = 10 ∨ chr % 256 = 13 then []
  else if chr % 256 ≥ 0x20 then [Event.pgm_read_byte_near (chr % 256 - 0x20)]
  else []

/-- The collaborator calls made between state `s` and a later state `s'`. -/
def newEvents (s s' : Device) : List Event :=
  s'.trace.drop s.trace.length

/-- Between `s` and `s'` exactly two reports were submitted: the key-down
report for keycode `k` and modifiers `m`, then the idle report, both with
length 8. -/
def SubmittedKeystroke (s s' : Device) (k m : Nat) : Prop :=
  s.trace <+: s'.trace ∧
    reports (newEvents s s') = [([m, 0, k, 0, 0, 0, 0, 0], 8), ([0, 0, 0, 0, 0, 0, 0, 0], 8)]

instance (s s' : Device) (k m : Nat) : Decidable (SubmittedKeystroke s s' k m) := by
  unfold SubmittedKeystroke
  infer_instance

/-- Whether the entry `e` has the flag of a mask; an undefined mask flags
nothing. -/
def hasFlag (mask : Option Nat) (e : Nat) : Bool :=
  match mask with
  | some mk => e &&& mk != 0
  | none => false

/-- A keycode without flags: a non-zero 8-bit value that lies inside the
scancode mask, is not the sentinel, and has none of the three flags. -/
def PlainKeycode (L : KeyLayout) (k : Nat) : Prop :=
  0 < k ∧ k < 256 ∧ k &&& L.KEYCODE_MASK_SCANCODE = k ∧ k ≠ L.KEY_NON_US_BS_MAPPING ∧
  hasFlag L.SHIFT_MASK k = false ∧ hasFlag L.ALTGR_MASK k = false ∧
  hasFlag L.RCTRL_MASK k = false

instance (L : KeyLayout) (k : Nat) : Decidable (PlainKeycode L k) := by
  unfold PlainKeycode
  infer_instance

/-- The modifier byte as the spec words it: the OR of the shift bit if `e`
has the shift flag, the right-alt bit if it has the AltGr flag and the
right-ctrl bit if it has the right-ctrl flag (each bit as an 8-bit value),
which is 0 if no flag is set. -/
def modifierOfFlags (L : KeyLayout) (e : Nat) : Nat :=
  (if hasFlag L.SHIFT_MASK e then L.MODIFIERKEY_SHIFT % 256 else 0) |||
  (if hasFlag L.ALTGR_MASK e then L.MODIFIERKEY_RIGHT_ALT % 256 else 0) |||
  (if hasFlag L.RCTRL_MASK e then L.MODIFIERKEY_RIGHT_CTRL % 256 else 0)

/-! ## Sample environments and devices -/

/-- A driver that is ready at every check, with a clock that advances by one
millisecond per reading and erased flash (`0xFF`) behind the key table. -/
def alwaysReady : Env :=
  { usbInterruptIsReady := fun _ => true, millis := fun i => i,
    flashAfterTable := fun _ => 0xFF }

/-- A driver that is busy for `n` checks before each check at which it is
ready. -/
def readyEvery (n : Nat) : Env :=
  { usbInterruptIsReady := fun i => i % (n + 1) == n, millis := fun i => i,
    flashAfterTable := fun _ => 0xFF }

/-- Modelled from the spec: the constants and the table `keycodes_ascii` of
`keylayouts.h`, which is not among the sources.  Every table entry packs a
scancode with the flag bits of the modifiers that accompany it (`0x40` for
shift, `0x80` for right-alt; no right-ctrl flag); backspace, tab and enter
have the dedicated keycodes 42, 43 and 40; the sentinel `0x3F` stands for the
non-US key 100.  The table has the 96 entries of the characters `0x20` to
`0x7F` of a US keyboard: `' '` is the space keycode 44 with no flag, `'A'` is
the letter-A keycode 4 with the shift flag. -/
def specLayout : KeyLayout :=
  { SHIFT_MASK := some 0x40,
    ALTGR_MASK := some 0x80,
    RCTRL_MASK := none,
    MODIFIERKEY_SHIFT := 0x02,
    MODIFIERKEY_RIGHT_ALT := 0x40,
    MODIFIERKEY_RIGHT_CTRL := 0x10,
    KEYCODE_MASK_SCANCODE := 0x3F,
    KEY_NON_US_BS_MAPPING := 0x3F,
    KEY_NON_US_BS := 100,
    KEY_BACKSPACE := 42,
    KEY_TAB := 43,
    KEY_ENTER := 40,
    keycodes_ascii :=
      [44, 94, 116, 96, 97, 98, 100, 52, 102, 103, 101, 110, 54, 45, 55, 56,
       39, 30, 31, 32, 33, 34, 35, 36, 37, 38, 115, 51, 118, 46, 119, 120,
       95, 68, 69, 70, 71, 72, 73, 74, 75, 76, 77, 78, 79, 80, 81, 82,
       83, 84, 85, 86, 87, 88, 89, 90, 91, 92, 93, 47, 49, 48, 99, 109,
       53, 4, 5, 6, 7, 8, 9, 10, 11, 12, 13, 14, 15, 16, 17, 18,
       19, 20, 21, 22, 23, 24, 25, 26, 27, 28, 29, 111, 113, 112, 117, 42] }

/-- The global `DigiKeyboardDevice DigiKeyboard = DigiKeyboardDevice();`,
constructed in zero-initialised static storage. -/
def DigiKeyboard : Device :=
  DigiKeyboardDevice [0, 0, 0, 0, 0, 0, 0, 0]

/-- A device in which a key is held: `DigiKeyboard.sendKeyPress(4, 2)` was
called on the global (the driver being ready) and the key was not released. -/
def keyHeld : Device :=
  (sendKeyPress_2 alwaysReady 1 4 2 DigiKeyboard).getD DigiKeyboard

/-- The request constants of `usbdrv.h`, which is not among the sources,
with the values of the USB and HID class specifications: type mask `0x60`,
class type `0x20`, `GET_REPORT` 1, `GET_IDLE` 2, `SET_IDLE` 10.  Used for
concrete runs. -/
def hidRequestCodes : UsbDrv :=
  { USBRQ_TYPE_MASK := 0x60, USBRQ_TYPE_CLASS := 0x20, USBRQ_HID_GET_REPORT := 1,
    USBRQ_HID_GET_IDLE := 2, USBRQ_HID_SET_IDLE := 10 }

/-- Whether a setup packet is a class request with request code `code`. -/
def isClassRequest (U : UsbDrv) (data : List Nat) (code : Nat) : Prop :=
  (data.getD 0 0 % 256) &&& U.USBRQ_TYPE_MASK = U.USBRQ_TYPE_CLASS ∧ data.getD 1 0 % 256 = code

instance (U : UsbDrv) (data : List Nat) (code : Nat) : Decidable (isClassRequest U data code) := by
  unfold isClassRequest
  infer_instance

/-- The device `s` with the member `sUseFeedbackLed` set to `b`. -/
def withFeedbackLed (b : Bool) (s : Device) : Device :=
  { s with sUseFeedbackLed := b }

/-- The levels written to the indicator, in order. -/
def ledWrites : List Event → List Bool
  | [] => []
  | Event.digitalWrite_LED_BUILTIN h :: es => h :: ledWrites es
  | _ :: es => ledWrites es

/-- The translation domain of `write`: backspace, tab, line-feed,
carriage-return and the printable characters `0x20` to `0x7E`. -/
def InTranslationDomain (chr : Nat) : Prop :=
  chr = 8 ∨ chr = 9 ∨ chr = 10 ∨ chr = 13 ∨ (0x20 ≤ chr ∧ chr ≤ 0x7E)

instance (chr : Nat) : Decidable (InTranslationDomain chr) := by
  unfold InTranslationDomain
  infer_instance

/-- The advance of the clock, modulo `2 ^ 32`, between the readings with
index `c` and `c + 1`: the value of `now - last` in `delay` when `last` is
reading `c` and `now` is reading `c + 1`. -/
def clockStep (E : Env) (c : Nat) : Nat :=
  (E.millis (c + 1) % 2 ^ 32 + 2 ^ 32 - E.millis c % 2 ^ 32) % 2 ^ 32

/-- The sum of the `n` clock steps that start at the reading with index `c`. -/
def clockAdvance (E : Env) : Nat → Nat → Nat
  | _, 0 => 0
  | c, n + 1 => clockStep E c + clockAdvance E (c + 1) n

/-- The events of `n` iterations of the loop of `delay`, the first of which
takes the reading with index `c`: a reading of the clock and one `usbPoll()`
per iteration. -/
def delayRounds (E : Env) : Nat → Nat → List Event
  | _, 0 => []
  | c, n + 1 => [Event.millis (E.millis c % 2 ^ 32), Event.usbPoll] ++ delayRounds E (c + 1) n

/-- The state that `delay` leaves after `n` iterations of its loop. -/
def afterDelay (E : Env) (s : Device) (n : Nat) : Device :=
  { s with clockReads := s.clockReads + 1 + n,
           trace := s.trace ++ [Event.millis (E.millis s.clockReads % 2 ^ 32)] ++
             delayRounds E (s.clockReads + 1) n }

/-! ## The waiting loop -/

theorem waitForInterruptReady_of_readyAfter (E : Env) :
    ∀ (fuel n : Nat) (s : Device), ReadyAfter E s.readyChecks n → n < fuel →
      waitForInterruptReady E fuel s = some (afterWait s n) := by
  intro fuel
  induction fuel with
  | zero => intro n s _ h; omega
  | succ fuel ih =>
    intro n s hr hn
    cases n with
    | zero =>
      have h0 : E.usbInterruptIsReady s.readyChecks = true := by simpa using hr.2
      simp [waitForInterruptReady, h0, afterWait, busyRounds]
    | succ n =>
      have h0 : E.usbInterruptIsReady s.readyChecks = false := by simpa using hr.1 0 (by omega)
      have hr2 : ReadyAfter E (s.readyChecks + 1) n := by
        refine ⟨fun i hi => ?_, ?_⟩
        · have := hr.1 (i + 1) (by omega)
          rwa [show s.readyChecks + 1 + i = s.readyChecks + (i + 1) by omega]
        · have := hr.2
          rwa [show s.readyChecks + 1 + n = s.readyChecks + (n + 1) by omega]
      have key := ih n
        { s with readyChecks := s.readyChecks + 1,
                 trace := s.trace ++ [Event.usbInterruptIsReady false] ++
                   [Event.usbPoll, Event.delay_ms 5] } hr2 (by omega)
      simp only [waitForInterruptReady, h0]
      simp only [Bool.not_false, if_true]
      rw [key]
      simp [afterWait, busyRounds, Nat.add_assoc, Nat.add_comm 1 n]

theorem waitForInterruptReady_eq_some (E : Env) :
    ∀ (fuel : Nat) (s s' : Device), waitForInterruptReady E fuel s = some s' →
      ∃ n, n < fuel ∧ ReadyAfter E s.readyChecks n ∧ s' = afterWait s n := by
  intro fuel
  induction fuel with
  | zero => intro s s' h; simp [waitForInterruptReady] at h
  | succ fuel ih =>
    intro s s' h
    cases h0 : E.usbInterruptIsReady s.readyChecks with
    | true =>
      simp [waitForInterruptReady, h0] at h
      refine ⟨0, by omega, ⟨fun i hi => by omega, by simpa using h0⟩, ?_⟩
      rw [← h]; simp [afterWait, busyRounds]
    | false =>
      simp only [waitForInterruptReady, h0, Bool.not_false, if_true] at h
      obtain ⟨n, hn, hr, hs⟩ := ih _ _ h
      refine ⟨n + 1, by omega, ⟨fun i hi => ?_, ?_⟩, ?_⟩
      · cases i with
        | zero => simpa using h0
        | succ i =>
          have := hr.1 i (by omega)
          simp only at this
          rwa [show s.readyChecks + (i + 1) = s.readyChecks + 1 + i by omega]
      · have := hr.2
        simp only at this
        rwa [show s.readyChecks + (n + 1) = s.readyChecks + 1 + n by omega]
      · rw [hs]; simp [afterWait, busyRounds, Nat.add_assoc, Nat.add_comm 1 n]

/-! ## Projections and appended traces -/

@[simp]
theorem reports_append (xs ys : List Event) :
    reports (xs ++ ys) = reports xs ++ reports ys := by
  induction xs with
  | nil => rfl
  | cons e es ih => cases e <;> simp [reports, ih]

@[simp]
theorem effects_append (xs ys : List Event) :
    effects (xs ++ ys) = effects xs ++ effects ys := by
  induction xs with
  | nil => rfl
  | cons e es ih => cases e <;> simp [effects, ih]

@[simp]
theorem polls_append (xs ys : List Event) :
    polls (xs ++ ys) = polls xs + polls ys := by
  induction xs with
  | nil => simp [polls]
  | cons e es ih =>
    cases e
    all_goals simp [polls, ih]
    all_goals omega

@[simp]
theorem tableReads_append (xs ys : List Event) :
    tableReads (xs ++ ys) = tableReads xs ++ tableReads ys := by
  induction xs with
  | nil => rfl
  | cons e es ih => cases e <;> simp [tableReads, ih]

@[simp]
theorem reports_busyRounds (n : Nat) : reports (busyRounds n) = [] := by
  induction n with
  | zero => rfl
  | succ n ih => simp [busyRounds, reports, ih]

@[simp]
theorem effects_busyRounds (n : Nat) : effects (busyRounds n) = [] := by
  induction n with
  | zero => rfl
  | succ n ih => simp [busyRounds, effects, ih]

@[simp]
theorem tableReads_busyRounds (n : Nat) : tableReads (busyRounds n) = [] := by
  induction n with
  | zero => rfl
  | succ n ih => simp [busyRounds, tableReads, ih]

@[simp]
theorem polls_busyRounds (n : Nat) : polls (busyRounds n) = n := by
  induction n with
  | zero => rfl
  | succ n ih => simp [busyRounds, polls, ih]

theorem newEvents_append (s s' : Device) (new : List Event) (h : s'.trace = s.trace ++ new) :
    newEvents s s' = new := by
  simp [newEvents, h]

/-! ## One report -/

theorem memset_reportBuffer (buf : List Nat) (h : buf.length = 8) :
    memset buf 0 sizeofReportBuffer = idleReport := by
  have hd : buf.drop 8 = [] := List.drop_eq_nil_of_le (by omega)
  simp [memset, sizeofReportBuffer, idleReport, hd, List.replicate]

theorem fillAndSubmit_afterWait (s : Device) (k m n : Nat) (h : s.reportBuffer.length = 8) :
    fillAndSubmit k m (afterWait s n) = afterPress s k m n := by
  have hb : (afterWait s n).reportBuffer = s.reportBuffer := rfl
  unfold fillAndSubmit
  rw [hb, memset_reportBuffer _ h]
  simp [afterPress, afterWait, idleReport, keyDownReport, sizeofReportBuffer]

theorem sendKeyPress_2_of_readyAfter (E : Env) (fuel k m n : Nat) (s : Device)
    (h : s.reportBuffer.length = 8) (hr : ReadyAfter E s.readyChecks n) (hn : n < fuel) :
    sendKeyPress_2 E fuel k m s = some (afterPress s k m n) := by
  simp [sendKeyPress_2, waitForInterruptReady_of_readyAfter E fuel n s hr hn,
    fillAndSubmit_afterWait s k m n h]

theorem sendKeyPress_2_eq_some (E : Env) (fuel k m : Nat) (s s' : Device)
    (h : s.reportBuffer.length = 8) (hs : sendKeyPress_2 E fuel k m s = some s') :
    ∃ n, n < fuel ∧ ReadyAfter E s.readyChecks n ∧ s' = afterPress s k m n := by
  simp only [sendKeyPress_2, Option.map_eq_some'] at hs
  obtain ⟨s1, h1, h2⟩ := hs
  obtain ⟨n, hn, hr, rfl⟩ := waitForInterruptReady_eq_some E fuel s s1 h1
  exact ⟨n, hn, hr, by rw [← h2, fillAndSubmit_afterWait s k m n h]⟩

/-! ## One keystroke -/

theorem sendKeyStroke_3_of_readyAfter (E : Env) (fuel k m n1 n2 : Nat) (led : Bool)
    (s : Device) (h : s.reportBuffer.length = 8)
    (hr1 : ReadyAfter E s.readyChecks n1) (hn1 : n1 < fuel)
    (hr2 : ReadyAfter E (s.readyChecks + n1 + 1) n2) (hn2 : n2 < fuel) :
    sendKeyStroke_3 E fuel k m led s = some (afterStroke s k m led n1 n2) := by
  cases led with
  | false =>
    simp only [sendKeyStroke_3, Bool.false_eq_true, if_false]
    rw [sendKeyPress_2_of_readyAfter E fuel k m n1 s h hr1 hn1]
    simp only
    rw [sendKeyPress_2_of_readyAfter E fuel 0 0 n2 (afterPress s k m n1) (by rfl) hr2 hn2]
    simp [afterPress, afterStroke, ledEvent, keyDownReport, idleReport]
  | true =>
    simp only [sendKeyStroke_3, if_true]
    rw [sendKeyPress_2_of_readyAfter E fuel k m n1
      { s with trace := s.trace ++ [Event.digitalWrite_LED_BUILTIN true] } h hr1 hn1]
    simp only
    rw [sendKeyPress_2_of_readyAfter E fuel 0 0 n2
      (afterPress { s with trace := s.trace ++ [Event.digitalWrite_LED_BUILTIN true] } k m n1)
      (by rfl) hr2 hn2]
    simp [afterPress, afterStroke, ledEvent, keyDownReport, idleReport]

theorem sendKeyStroke_3_eq_some (E : Env) (fuel k m : Nat) (led : Bool) (s s' : Device)
    (h : s.reportBuffer.length = 8) (hs : sendKeyStroke_3 E fuel k m led s = some s') :
    ∃ n1 n2, n1 < fuel ∧ n2 < fuel ∧ ReadyAfter E s.readyChecks n1 ∧
      ReadyAfter E (s.readyChecks + n1 + 1) n2 ∧ s' = afterStroke s k m led n1 n2 := by
  unfold sendKeyStroke_3 at hs
  simp only at hs
  split at hs
  · exact absurd hs (by simp)
  · rename_i s2 h2
    split at hs
    · exact absurd hs (by simp)
    · rename_i s3 h3
      have hlen1 : (if led = true then
          { s with trace := s.trace ++ [Event.digitalWrite_LED_BUILTIN true] }
          else s).reportBuffer.length = 8 := by
        cases led <;> simpa using h
      obtain ⟨n1, hn1, hr1, rfl⟩ := sendKeyPress_2_eq_some E fuel k m _ s2 hlen1 h2
      obtain ⟨n2, hn2, hr2, rfl⟩ := sendKeyPress_2_eq_some E fuel 0 0 _ s3 (by rfl) h3
      have hc : (if led = true then
          { s with trace := s.trace ++ [Event.digitalWrite_LED_BUILTIN true] }
          else s).readyChecks = s.readyChecks := by
        cases led <;> rfl
      rw [hc] at hr1
      have hr2' : ReadyAfter E (s.readyChecks + n1 + 1) n2 := by
        simpa [afterPress, hc] using hr2
      refine ⟨n1, n2, hn1, hn2, hr1, hr2', ?_⟩
      have := sendKeyStroke_3_of_readyAfter E fuel k m n1 n2 led s h hr1 hn1 hr2' hn2
      unfold sendKeyStroke_3 at this
      simp only [h2, h3] at this
      simp only [Option.some.injEq] at hs this
      rw [← hs, this]

theorem readyAfter_alwaysReady (c : Nat) : ReadyAfter alwaysReady c 0 :=
  ⟨fun i hi => absurd hi (Nat.not_lt_zero i), rfl⟩

theorem keyDownReport_ne_idle_iff (k m : Nat) :
    keyDownReport k m ≠ idleReport ↔ (k ≠ 0 ∨ m ≠ 0) := by
  simp only [keyDownReport, idleReport, ne_eq, List.cons.injEq, and_true, true_and]
  tauto

/-! ## One character -/

theorem writeData_snd (L : KeyLayout) (E : Env) (chr : Nat) (s : Device) :
    (writeData L E chr s).2 = { s with trace := s.trace ++ tableReadEvents chr } := by
  unfold writeData tableReadEvents
  simp only
  split_ifs <;> simp

theorem writeData_fst_lt (L : KeyLayout) (E : Env) (chr : Nat) (s : Device) :
    (writeData L E chr s).1 < 256 := by
  unfold writeData pgm_read_byte_near
  simp only
  split_ifs
  · exact Nat.mod_lt _ (by decide)
  · exact Nat.mod_lt _ (by decide)
  · exact Nat.mod_lt _ (by decide)
  · simp only
    split
    · exact Nat.mod_lt _ (by decide)
    · exact Nat.mod_lt _ (by decide)
  · exact Nat.zero_lt_succ 255

theorem keycode_to_key_lt (L : KeyLayout) (e : Nat) : keycode_to_key L e < 256 := by
  unfold keycode_to_key
  simp only
  split_ifs
  · exact Nat.mod_lt _ (by decide)
  · exact Nat.mod_lt _ (by decide)

theorem orModifierIfFlag_lt (mask : Option Nat) (bit keycode modifier : Nat)
    (h : modifier < 256) : orModifierIfFlag mask bit keycode modifier < 256 := by
  unfold orModifierIfFlag
  split
  · split_ifs
    · exact Nat.mod_lt _ (by decide)
    · exact h
  · exact h

theorem keycode_to_modifier_lt (L : KeyLayout) (e : Nat) : keycode_to_modifier L e < 256 := by
  unfold keycode_to_modifier
  exact orModifierIfFlag_lt _ _ _ _ (orModifierIfFlag_lt _ _ _ _
    (orModifierIfFlag_lt _ _ _ _ (by decide)))

theorem write_of_unmapped (L : KeyLayout) (E : Env) (fuel chr : Nat) (s : Device)
    (h : (writeData L E chr s).1 = 0) :
    write L E fuel chr s = some ({ s with trace := s.trace ++ tableReadEvents chr }, 1) := by
  have h2 := writeData_snd L E chr s
  unfold write
  rcases hw : writeData L E chr s with ⟨d, s1⟩
  rw [hw] at h h2
  simp only at h h2
  simp [h, h2]

theorem write_of_mapped (L : KeyLayout) (E : Env) (fuel chr : Nat) (s : Device)
    (h : (writeData L E chr s).1 ≠ 0) :
    write L E fuel chr s =
      (sendKeyStroke_3 E fuel (keycode_to_key L (writeData L E chr s).1)
        (keycode_to_modifier L (writeData L E chr s).1) s.sUseFeedbackLed
        { s with trace := s.trace ++ tableReadEvents chr }).map (fun s2 => (s2, 1)) := by
  have h2 := writeData_snd L E chr s
  unfold write
  rcases hw : writeData L E chr s with ⟨d, s1⟩
  rw [hw] at h h2
  simp only at h h2
  subst h2
  simp only [ne_eq, h, not_false_eq_true, if_true]
  split <;> simp_all

/-- The state that `write(chr)` leaves for a character with a mapping. -/
theorem write_of_mapped_readyAfter (L : KeyLayout) (E : Env) (fuel chr n1 n2 : Nat)
    (s : Device) (h : (writeData L E chr s).1 ≠ 0) (hlen : s.reportBuffer.length = 8)
    (hr1 : ReadyAfter E s.readyChecks n1) (hn1 : n1 < fuel)
    (hr2 : ReadyAfter E (s.readyChecks + n1 + 1) n2) (hn2 : n2 < fuel) :
    write L E fuel chr s =
      some (afterStroke { s with trace := s.trace ++ tableReadEvents chr }
        (keycode_to_key L (writeData L E chr s).1)
        (keycode_to_modifier L (writeData L E chr s).1) s.sUseFeedbackLed n1 n2, 1) := by
  rw [write_of_mapped L E fuel chr s h,
    sendKeyStroke_3_of_readyAfter E fuel _ _ n1 n2 _
      { s with trace := s.trace ++ tableReadEvents chr } hlen hr1 hn1 hr2 hn2]
  rfl

theorem write_eq_some_of_mapped (L : KeyLayout) (E : Env) (fuel chr : Nat)
    (s : Device) (r : Device × Nat) (h : (writeData L E chr s).1 ≠ 0)
    (hlen : s.reportBuffer.length = 8) (hw : write L E fuel chr s = some r) :
    ∃ n1 n2, n1 < fuel ∧ n2 < fuel ∧ ReadyAfter E s.readyChecks n1 ∧
      ReadyAfter E (s.readyChecks + n1 + 1) n2 ∧
      r = (afterStroke { s with trace := s.trace ++ tableReadEvents chr }
        (keycode_to_key L (writeData L E chr s).1)
        (keycode_to_modifier L (writeData L E chr s).1) s.sUseFeedbackLed n1 n2, 1) := by
  rw [write_of_mapped L E fuel chr s h] at hw
  simp only [Option.map_eq_some'] at hw
  obtain ⟨s2, h2, rfl⟩ := hw
  obtain ⟨n1, n2, hn1, hn2, hr1, hr2, rfl⟩ :=
    sendKeyStroke_3_eq_some E fuel _ _ _
      { s with trace := s.trace ++ tableReadEvents chr } s2 hlen h2
  exact ⟨n1, n2, hn1, hn2, hr1, hr2, rfl⟩

@[simp]
theorem effects_tableReadEvents (chr : Nat) : effects (tableReadEvents chr) = [] := by
  unfold tableReadEvents
  split_ifs <;> rfl

@[simp]
theorem reports_tableReadEvents (chr : Nat) : reports (tableReadEvents chr) = [] := by
  unfold tableReadEvents
  split_ifs <;> rfl

theorem write_returns_one (L : KeyLayout) (E : Env) (fuel chr : Nat) (s : Device)
    (r : Device × Nat) (hw : write L E fuel chr s = some r) : r.2 = 1 := by
  by_cases hd : (writeData L E chr s).1 = 0
  · rw [write_of_unmapped L E fuel chr s hd] at hw
    simp only [Option.some.injEq] at hw
    rw [← hw]
  · rw [write_of_mapped L E fuel chr s hd] at hw
    simp only [Option.map_eq_some'] at hw
    obtain ⟨s2, _, rfl⟩ := hw
    rfl

theorem write_returns (L : KeyLayout) (E : Env) (fuel chr n1 n2 : Nat) (s : Device)
    (hlen : s.reportBuffer.length = 8)
    (hr1 : ReadyAfter E s.readyChecks n1) (hn1 : n1 < fuel)
    (hr2 : ReadyAfter E (s.readyChecks + n1 + 1) n2) (hn2 : n2 < fuel) :
    ∃ s', write L E fuel chr s = some (s', 1) := by
  by_cases hd : (writeData L E chr s).1 = 0
  · exact ⟨_, write_of_unmapped L E fuel chr s hd⟩
  · exact ⟨_, write_of_mapped_readyAfter L E fuel chr n1 n2 s hd hlen hr1 hn1 hr2 hn2⟩

theorem writeData_of_unmapped_control (L : KeyLayout) (E : Env) (chr : Nat) (s : Device)
    (hlt : chr < 0x20) (h8 : chr ≠ 8) (h9 : chr ≠ 9) (h10 : chr ≠ 10) (h13 : chr ≠ 13) :
    writeData L E chr s = (0, s) := by
  have hm : chr % 256 = chr := Nat.mod_eq_of_lt (by omega)
  unfold writeData
  simp only [hm]
  rw [if_neg h8, if_neg h9, if_neg (by omega), if_neg (by omega)]

/-! ## Keycodes and flags -/

theorem or_mod_two_pow (a b n : Nat) : (a ||| b) % 2 ^ n = a % 2 ^ n ||| b % 2 ^ n := by
  apply Nat.eq_of_testBit_eq
  intro i
  simp [Bool.and_or_distrib_left]

theorem or_mod_256 (a b : Nat) : (a ||| b) % 256 = a % 256 ||| b % 256 :=
  or_mod_two_pow a b 8

theorem or_lt_256 (a b : Nat) (ha : a < 256) (hb : b < 256) : a ||| b < 256 :=
  Nat.or_lt_two_pow (n := 8) ha hb

theorem flagBit_lt (c : Bool) (bit : Nat) : (if c then bit % 256 else 0) < 256 := by
  split
  · exact Nat.mod_lt _ (by decide)
  · decide

theorem orModifierIfFlag_eq (mask : Option Nat) (bit e m : Nat) (hm : m < 256) :
    orModifierIfFlag mask bit e m = m ||| (if hasFlag mask e then bit % 256 else 0) := by
  unfold orModifierIfFlag hasFlag
  cases mask with
  | none => simp
  | some mk =>
    by_cases h : e &&& mk = 0
    · simp [h]
    · simp [h, or_mod_256, Nat.mod_eq_of_lt hm]

theorem keycode_to_modifier_eq_modifierOfFlags (L : KeyLayout) (e : Nat) (he : e < 256) :
    keycode_to_modifier L e = modifierOfFlags L e := by
  unfold keycode_to_modifier modifierOfFlags
  simp only [Nat.mod_eq_of_lt he]
  rw [orModifierIfFlag_eq _ _ _ 0 (by decide), Nat.zero_or,
    orModifierIfFlag_eq _ _ _ _ (flagBit_lt _ _),
    orModifierIfFlag_eq _ _ _ _ (or_lt_256 _ _ (flagBit_lt _ _) (flagBit_lt _ _))]

theorem keycode_to_key_plain (L : KeyLayout) (k : Nat) (h : PlainKeycode L k) :
    keycode_to_key L k = k := by
  obtain ⟨_, hlt, hmask, hne, _, _, _⟩ := h
  unfold keycode_to_key
  simp only [Nat.mod_eq_of_lt hlt, hmask]
  rw [if_neg hne]

theorem keycode_to_modifier_plain (L : KeyLayout) (k : Nat) (h : PlainKeycode L k) :
    keycode_to_modifier L k = 0 := by
  obtain ⟨_, hlt, _, _, h1, h2, h3⟩ := h
  rw [keycode_to_modifier_eq_modifierOfFlags L k hlt]
  simp [modifierOfFlags, h1, h2, h3]

theorem write_submits_keystroke (L : KeyLayout) (E : Env) (fuel chr : Nat) (s : Device)
    (r : Device × Nat) (hd : (writeData L E chr s).1 ≠ 0) (hlen : s.reportBuffer.length = 8)
    (hw : write L E fuel chr s = some r) :
    SubmittedKeystroke s r.1 (keycode_to_key L (writeData L E chr s).1)
      (keycode_to_modifier L (writeData L E chr s).1) := by
  obtain ⟨n1, n2, _, _, _, _, rfl⟩ := write_eq_some_of_mapped L E fuel chr s r hd hlen hw
  have ht : ∀ k m led n1 n2,
      (afterStroke { s with trace := s.trace ++ tableReadEvents chr } k m led n1 n2).trace =
        s.trace ++ (tableReadEvents chr ++ (ledEvent led true ++ busyRounds n1 ++
          [Event.usbInterruptIsReady true,
           Event.usbSetInterrupt (keyDownReport (k % 256) (m % 256)) 8] ++
          busyRounds n2 ++
          [Event.usbInterruptIsReady true, Event.usbSetInterrupt idleReport 8] ++
          ledEvent led false)) := by
    intro k m led n1 n2
    simp only [afterStroke, List.append_assoc]
  refine ⟨⟨_, (ht _ _ _ _ _).symm⟩, ?_⟩
  rw [newEvents_append _ _ _ (ht _ _ _ _ _)]
  cases s.sUseFeedbackLed <;>
    simp [ledEvent, reports, keyDownReport, idleReport,
      Nat.mod_eq_of_lt (keycode_to_key_lt L _), Nat.mod_eq_of_lt (keycode_to_modifier_lt L _)]

theorem or_or_and_self (a x y : Nat) : (a ||| x ||| y) &&& a = a := by
  apply Nat.eq_of_testBit_eq
  intro i
  simp only [Nat.testBit_and, Nat.testBit_or]
  cases a.testBit i <;> simp

theorem keycode_with_shift_flag (L : KeyLayout) (ka sm : Nat)
    (hsm : L.SHIFT_MASK = some sm) (h0 : 0 < sm) (hlt : sm < 256)
    (hdisj : sm &&& L.KEYCODE_MASK_SCANCODE = 0) (hka : PlainKeycode L ka) :
    keycode_to_key L (ka ||| sm) = ka ∧
    keycode_to_modifier L (ka ||| sm) &&& (L.MODIFIERKEY_SHIFT % 256) =
      L.MODIFIERKEY_SHIFT % 256 := by
  obtain ⟨_, hk256, hmask, hne, h1, _, _⟩ := hka
  have h1 : ka &&& sm = 0 := by simpa [hasFlag, hsm] using h1
  have he : ka ||| sm < 256 := or_lt_256 _ _ hk256 hlt
  constructor
  · unfold keycode_to_key
    simp only [Nat.mod_eq_of_lt he, Nat.and_distrib_right, hmask, hdisj, Nat.or_zero,
      Nat.mod_eq_of_lt hk256]
    rw [if_neg hne]
  · rw [keycode_to_modifier_eq_modifierOfFlags L _ he]
    have hflag : hasFlag L.SHIFT_MASK (ka ||| sm) = true := by
      rw [hsm]
      simp only [hasFlag, Nat.and_distrib_right, h1, Nat.zero_or, Nat.and_self]
      simpa using Nat.pos_iff_ne_zero.mp h0
    unfold modifierOfFlags
    rw [hflag]
    exact or_or_and_self _ _ _

theorem writeData_printable (L : KeyLayout) (E : Env) (chr e0 : Nat) (s : Device)
    (hlo : 0x20 ≤ chr) (hhi : chr ≤ 0x7E)
    (hT : L.keycodes_ascii[chr - 0x20]? = some e0) :
    (writeData L E chr s).1 = e0 % 256 := by
  have hm : chr % 256 = chr := Nat.mod_eq_of_lt (by omega)
  unfold writeData
  simp only [hm]
  rw [if_neg (by omega), if_neg (by omega), if_neg (by omega), if_pos (by omega)]
  simp only [pgm_read_byte_near, hT]

theorem sendKeyPress_2_trace (E : Env) (fuel k m : Nat) (s s' : Device)
    (hs : sendKeyPress_2 E fuel k m s = some s') :
    ∃ n buf, s'.trace = s.trace ++ (busyRounds n ++
      [Event.usbInterruptIsReady true, Event.usbSetInterrupt buf sizeofReportBuffer]) := by
  simp only [sendKeyPress_2, Option.map_eq_some'] at hs
  obtain ⟨s1, h1, h2⟩ := hs
  obtain ⟨n, _, _, rfl⟩ := waitForInterruptReady_eq_some E fuel s s1 h1
  refine ⟨n, (fillAndSubmit k m (afterWait s n)).reportBuffer, ?_⟩
  rw [← h2]
  simp [fillAndSubmit, afterWait]

theorem write_reportBuffer_idle (L : KeyLayout) (E : Env) (fuel chr : Nat) (s : Device)
    (r : Device × Nat) (hidle : s.reportBuffer = idleReport)
    (hw : write L E fuel chr s = some r) : r.1.reportBuffer = idleReport := by
  by_cases hd : (writeData L E chr s).1 = 0
  · rw [write_of_unmapped L E fuel chr s hd] at hw
    simp only [Option.some.injEq] at hw
    rw [← hw]
    exact hidle
  · obtain ⟨n1, n2, _, _, _, _, rfl⟩ :=
      write_eq_some_of_mapped L E fuel chr s r hd (by rw [hidle]; rfl) hw
    rfl

/-! ## The feedback flag as a frame -/

theorem waitForInterruptReady_withFeedbackLed (E : Env) (b : Bool) :
    ∀ (fuel : Nat) (s : Device),
      waitForInterruptReady E fuel (withFeedbackLed b s) =
        (waitForInterruptReady E fuel s).map (withFeedbackLed b) := by
  intro fuel
  induction fuel with
  | zero => intro s; rfl
  | succ fuel ih =>
    intro s
    cases h0 : E.usbInterruptIsReady s.readyChecks with
    | true => simp [waitForInterruptReady, withFeedbackLed, h0]
    | false =>
      have key := ih
        { s with readyChecks := s.readyChecks + 1,
                 trace := s.trace ++ [Event.usbInterruptIsReady false] ++
                   [Event.usbPoll, Event.delay_ms 5] }
      simp only [waitForInterruptReady, withFeedbackLed, h0, Bool.not_false, if_true] at key ⊢
      exact key

theorem sendKeyPress_2_withFeedbackLed (E : Env) (b : Bool) (fuel k m : Nat) (s : Device) :
    sendKeyPress_2 E fuel k m (withFeedbackLed b s) =
      (sendKeyPress_2 E fuel k m s).map (withFeedbackLed b) := by
  unfold sendKeyPress_2
  rw [waitForInterruptReady_withFeedbackLed]
  cases waitForInterruptReady E fuel s <;> rfl

theorem sendKeyStroke_3_false_withFeedbackLed (E : Env) (b : Bool) (fuel k m : Nat)
    (s : Device) :
    sendKeyStroke_3 E fuel k m false (withFeedbackLed b s) =
      (sendKeyStroke_3 E fuel k m false s).map (withFeedbackLed b) := by
  simp only [sendKeyStroke_3, Bool.false_eq_true, if_false]
  rw [sendKeyPress_2_withFeedbackLed]
  cases h1 : sendKeyPress_2 E fuel k m s with
  | none => rfl
  | some s2 =>
    simp only [Option.map_some']
    rw [sendKeyPress_2_withFeedbackLed]
    cases sendKeyPress_2 E fuel 0 0 s2 <;> rfl

@[simp]
theorem ledWrites_append (xs ys : List Event) :
    ledWrites (xs ++ ys) = ledWrites xs ++ ledWrites ys := by
  induction xs with
  | nil => rfl
  | cons e es ih => cases e <;> simp [ledWrites, ih]

@[simp]
theorem ledWrites_busyRounds (n : Nat) : ledWrites (busyRounds n) = [] := by
  induction n with
  | zero => rfl
  | succ n ih => simp [busyRounds, ledWrites, ih]

@[simp]
theorem ledWrites_tableReadEvents (chr : Nat) : ledWrites (tableReadEvents chr) = [] := by
  unfold tableReadEvents
  split_ifs <;> rfl

theorem delayLoop_frame (E : Env) :
    ∀ (fuel : Nat) (milli : Int) (last : Nat) (s s' : Device),
      delayLoop E fuel milli last s = some s' →
      s'.sUseFeedbackLed = s.sUseFeedbackLed ∧ s'.reportBuffer = s.reportBuffer ∧
      s'.idleRate = s.idleRate := by
  intro fuel
  induction fuel with
  | zero => intro milli last s s' h; simp [delayLoop] at h
  | succ fuel ih =>
    intro milli last s s' h
    unfold delayLoop at h
    split_ifs at h with hm
    · simp only at h
      have key := ih _ _ _ s' h
      exact key
    · simp only [Option.some.injEq] at h
      subst h
      exact ⟨rfl, rfl, rfl⟩

theorem write_frame (L : KeyLayout) (E : Env) (fuel chr : Nat) (s : Device)
    (r : Device × Nat) (hlen : s.reportBuffer.length = 8)
    (hw : write L E fuel chr s = some r) :
    r.1.sUseFeedbackLed = s.sUseFeedbackLed ∧ r.1.idleRate = s.idleRate := by
  by_cases hd : (writeData L E chr s).1 = 0
  · rw [write_of_unmapped L E fuel chr s hd] at hw
    simp only [Option.some.injEq] at hw
    rw [← hw]
    exact ⟨rfl, rfl⟩
  · obtain ⟨n1, n2, _, _, _, _, rfl⟩ := write_eq_some_of_mapped L E fuel chr s r hd hlen hw
    exact ⟨rfl, rfl⟩

theorem write_ledWrites (L : KeyLayout) (E : Env) (fuel chr : Nat) (s : Device)
    (r : Device × Nat) (hlen : s.reportBuffer.length = 8)
    (hw : write L E fuel chr s = some r) :
    ledWrites (newEvents s r.1) =
      if (writeData L E chr s).1 ≠ 0 ∧ s.sUseFeedbackLed = true then [true, false] else [] := by
  by_cases hd : (writeData L E chr s).1 = 0
  · rw [write_of_unmapped L E fuel chr s hd] at hw
    simp only [Option.some.injEq] at hw
    rw [← hw, newEvents_append s _ (tableReadEvents chr) rfl]
    simp [hd]
  · obtain ⟨n1, n2, _, _, _, _, rfl⟩ := write_eq_some_of_mapped L E fuel chr s r hd hlen hw
    rw [newEvents_append s _ (tableReadEvents chr ++ _)
      (by simp only [afterStroke, List.append_assoc]; rfl)]
    cases hf : s.sUseFeedbackLed <;> simp [ledEvent, ledWrites, hd]

theorem flagged_or_and_all (p q r : Bool) (x y z : Nat) :
    ((if p then x else 0) ||| (if q then y else 0) ||| (if r then z else 0)) &&&
        (x ||| y ||| z) =
      (if p then x else 0) ||| (if q then y else 0) ||| (if r then z else 0) := by
  apply Nat.eq_of_testBit_eq
  intro i
  cases p <;> cases q <;> cases r <;>
    simp only [Nat.testBit_and, Nat.testBit_or, Nat.zero_testBit, if_true,
      Bool.false_eq_true, if_false] <;>
    cases x.testBit i <;> cases y.testBit i <;> cases z.testBit i <;> rfl

theorem keycode_to_modifier_bits (L : KeyLayout) (d : Nat) (hd : d < 256) :
    keycode_to_modifier L d &&&
        ((L.MODIFIERKEY_SHIFT ||| L.MODIFIERKEY_RIGHT_ALT ||| L.MODIFIERKEY_RIGHT_CTRL) % 256) =
      keycode_to_modifier L d := by
  rw [keycode_to_modifier_eq_modifierOfFlags L d hd, or_mod_256, or_mod_256]
  exact flagged_or_and_all _ _ _ _ _ _

theorem keycode_to_key_le (L : KeyLayout) (d : Nat) (hmask : L.KEYCODE_MASK_SCANCODE ≤ 101)
    (hbs : L.KEY_NON_US_BS ≤ 101) :
    keycode_to_key L d ≤ 101 ∧
    (keycode_to_key L d ≤ L.KEYCODE_MASK_SCANCODE ∨ keycode_to_key L d = L.KEY_NON_US_BS) := by
  unfold keycode_to_key
  simp only
  split_ifs with h
  · rw [Nat.mod_eq_of_lt (by omega)]
    exact ⟨hbs, Or.inr rfl⟩
  · have h1 : (d % 256 &&& L.KEYCODE_MASK_SCANCODE) % 256 ≤ L.KEYCODE_MASK_SCANCODE :=
      Nat.le_trans (Nat.mod_le _ _) Nat.and_le_right
    exact ⟨Nat.le_trans h1 hmask, Or.inl h1⟩

theorem write_reports_of_unmapped (L : KeyLayout) (E : Env) (fuel chr : Nat) (s : Device)
    (r : Device × Nat) (hd : (writeData L E chr s).1 = 0)
    (hw : write L E fuel chr s = some r) : reports (newEvents s r.1) = [] := by
  rw [write_of_unmapped L E fuel chr s hd] at hw
  simp only [Option.some.injEq] at hw
  rw [← hw, newEvents_append s _ (tableReadEvents chr) rfl]
  simp

theorem writeData_fst_of_table (L : KeyLayout) (E E' : Env) (chr : Nat) (s s' : Device)
    (hT : 95 ≤ L.keycodes_ascii.length) (hdom : InTranslationDomain chr) :
    (writeData L E chr s).1 = (writeData L E' chr s').1 := by
  rcases hdom with rfl | rfl | rfl | rfl | ⟨hlo, hhi⟩
  · simp [writeData]
  · simp [writeData]
  · simp [writeData]
  · simp [writeData]
  · have hlt : chr - 0x20 < L.keycodes_ascii.length := by omega
    have he : L.keycodes_ascii[chr - 0x20]? = some (L.keycodes_ascii[chr - 0x20]) :=
      List.getElem?_eq_getElem hlt
    rw [writeData_printable L E chr _ s hlo hhi he, writeData_printable L E' chr _ s' hlo hhi he]

/-! ## The loop of `delay` -/

theorem toLong_toULong (m : Int) (h0 : -2 ^ 31 ≤ m) (h1 : m < 2 ^ 31) :
    toLong (toULong m) = m := by
  unfold toLong toULong
  split_ifs <;> omega

theorem toLong_sub_elapsed (m : Int) (d : Nat) (h0 : 0 < m) (h1 : m < 2 ^ 31)
    (hd : d < 2 ^ 31) : toLong ((toULong m + 2 ^ 32 - d) % 2 ^ 32) = m - d := by
  unfold toLong toULong
  split_ifs <;> omega

@[simp]
theorem polls_delayRounds (E : Env) : ∀ (n c : Nat), polls (delayRounds E c n) = n := by
  intro n
  induction n with
  | zero => intro c; rfl
  | succ n ih => intro c; simp [delayRounds, polls, ih]

theorem delayLoop_step (E : Env) (fuel : Nat) (m : Int) (c : Nat) (s : Device)
    (hs : s.clockReads = c + 1) (h0 : 0 < m) (h1 : m < 2 ^ 31)
    (hd : clockStep E c < 2 ^ 31) :
    delayLoop E (fuel + 1) m (E.millis c % 2 ^ 32) s =
      delayLoop E fuel (m - clockStep E c) (E.millis (c + 1) % 2 ^ 32)
        { s with clockReads := c + 2,
                 trace := s.trace ++ [Event.millis (E.millis (c + 1) % 2 ^ 32), Event.usbPoll] } := by
  have hstep := toLong_sub_elapsed m (clockStep E c) h0 h1 hd
  unfold clockStep at hstep
  rw [delayLoop, if_pos h0]
  simp only [hs, hstep, update, clockStep, List.append_assoc, List.singleton_append]

theorem delayLoop_of_advance (E : Env) :
    ∀ (n fuel : Nat) (m : Int) (c : Nat) (s : Device), s.clockReads = c + 1 →
      -2 ^ 31 < m → m < 2 ^ 31 → (∀ i, clockStep E (c + i) < 2 ^ 31) →
      (∀ j, j < n → (clockAdvance E c j : Int) < m) → m ≤ (clockAdvance E c n : Int) →
      n < fuel →
      delayLoop E fuel m (E.millis c % 2 ^ 32) s =
        some { s with clockReads := c + 1 + n,
                      trace := s.trace ++ delayRounds E (c + 1) n } := by
  intro n
  induction n with
  | zero =>
    intro fuel m c s hs _ _ _ _ hle hf
    cases fuel with
    | zero => omega
    | succ f =>
      have hm : ¬ m > 0 := by
        simp only [clockAdvance, Nat.cast_zero] at hle
        omega
      unfold delayLoop
      rw [if_neg hm]
      cases s
      simp_all [delayRounds]
  | succ n ih =>
    intro fuel m c s hs _ hhi hstep hmin hle hf
    cases fuel with
    | zero => omega
    | succ f =>
      have hpos : 0 < m := by
        have := hmin 0 (by omega)
        simpa [clockAdvance] using this
      have hd : clockStep E c < 2 ^ 31 := by simpa using hstep 0
      rw [delayLoop_step E f m c s hs hpos hhi hd]
      have key := ih f (m - clockStep E c) (c + 1)
        { s with clockReads := c + 2,
                 trace := s.trace ++ [Event.millis (E.millis (c + 1) % 2 ^ 32), Event.usbPoll] }
        rfl (by omega) (by omega)
        (fun i => by
          have := hstep (i + 1)
          rwa [show c + (i + 1) = c + 1 + i by omega] at this)
        (fun j hj => by
          have := hmin (j + 1) (by omega)
          simp only [clockAdvance, Nat.cast_add] at this
          omega)
        (by
          simp only [clockAdvance, Nat.cast_add] at hle
          omega)
        (by omega)
      rw [key]
      simp only [delayRounds, List.append_assoc, Option.some.injEq, Device.mk.injEq, true_and,
        and_true]
      omega

theorem delayLoop_returns_after_advance (E : Env) :
    ∀ (fuel : Nat) (m : Int) (c : Nat) (s s' : Device), s.clockReads = c + 1 →
      -2 ^ 31 < m → m < 2 ^ 31 → (∀ i, clockStep E (c + i) < 2 ^ 31) →
      delayLoop E fuel m (E.millis c % 2 ^ 32) s = some s' →
      ∃ n, n < fuel ∧ (∀ j, j < n → (clockAdvance E c j : Int) < m) ∧
        m ≤ (clockAdvance E c n : Int) := by
  intro fuel
  induction fuel with
  | zero => intro m c s s' _ _ _ _ h; simp [delayLoop] at h
  | succ f ih =>
    intro m c s s' hs _ hhi hstep h
    by_cases hpos : 0 < m
    · have hd : clockStep E c < 2 ^ 31 := by simpa using hstep 0
      rw [delayLoop_step E f m c s hs hpos hhi hd] at h
      obtain ⟨n, hn, hmin, hle⟩ := ih (m - clockStep E c) (c + 1) _ s' rfl (by omega) (by omega)
        (fun i => by
          have := hstep (i + 1)
          rwa [show c + (i + 1) = c + 1 + i by omega] at this) h
      refine ⟨n + 1, by omega, fun j hj => ?_, ?_⟩
      · cases j with
        | zero => simpa [clockAdvance] using hpos
        | succ j =>
          have := hmin j (by omega)
          simp only [clockAdvance, Nat.cast_add]
          omega
      · simp only [clockAdvance, Nat.cast_add]
        omega
    · exact ⟨0, by omega, fun j hj => by omega, by simp only [clockAdvance, Nat.cast_zero]; omega⟩

theorem delay_of_advance (E : Env) (fuel n : Nat) (milli : Int) (s : Device)
    (h0 : -2 ^ 31 < milli) (h1 : milli < 2 ^ 31)
    (hstep : ∀ i, clockStep E (s.clockReads + i) < 2 ^ 31)
    (hmin : ∀ j, j < n → (clockAdvance E s.clockReads j : Int) < milli)
    (hle : milli ≤ (clockAdvance E s.clockReads n : Int)) (hn : n < fuel) :
    delay E fuel milli s = some (afterDelay E s n) := by
  unfold delay
  simp only
  rw [toLong_toULong milli (by omega) h1,
    delayLoop_of_advance E n fuel milli s.clockReads
      { s with clockReads := s.clockReads + 1,
               trace := s.trace ++ [Event.millis (E.millis s.clockReads % 2 ^ 32)] }
      rfl h0 h1 hstep hmin hle hn]
  rfl

theorem polls_newEvents_afterDelay (E : Env) (s : Device) (n : Nat) :
    polls (newEvents s (afterDelay E s n)) = n := by
  rw [newEvents_append s _ ([Event.millis (E.millis s.clockReads % 2 ^ 32)] ++
    delayRounds E (s.clockReads + 1) n) (by simp [afterDelay])]
  simp [polls]

/-! ## C1: the report that `sendKeyPress` builds -/

/-- C1: for 8-bit `k` and `m` and any 8-byte content of the report buffer,
every run of `sendKeyPress(k, m)` that returns leaves the buffer equal to
`[m, 0, k, 0, 0, 0, 0, 0]` and adds to the trace exactly one submission, of
that buffer with length 8; and it does return as soon as the driver becomes
ready within the iteration bound. -/
theorem sendKeyPress_encodes_key_and_modifiers (E : Env) (fuel k m : Nat) (s : Device)
    (hk : k < 256) (hm : m < 256) (hlen : s.reportBuffer.length = 8) :
    (∀ s', sendKeyPress_2 E fuel k m s = some s' →
      s'.reportBuffer = [m, 0, k, 0, 0, 0, 0, 0] ∧
      ∃ new, s'.trace = s.trace ++ new ∧ reports new = [([m, 0, k, 0, 0, 0, 0, 0], 8)]) ∧
    (∀ n, ReadyAfter E s.readyChecks n → n < fuel →
      ∃ s', sendKeyPress_2 E fuel k m s = some s') := by
  refine ⟨fun s' hs => ?_, fun n hr hn => ⟨_, sendKeyPress_2_of_readyAfter E fuel k m n s hlen hr hn⟩⟩
  obtain ⟨n, _, _, rfl⟩ := sendKeyPress_2_eq_some E fuel k m s s' hlen hs
  have hk' : k % 256 = k := Nat.mod_eq_of_lt hk
  have hm' : m % 256 = m := Nat.mod_eq_of_lt hm
  refine ⟨by simp [afterPress, keyDownReport, hk', hm'], ?_⟩
  refine ⟨busyRounds n ++ [Event.usbInterruptIsReady true,
    Event.usbSetInterrupt (keyDownReport (k % 256) (m % 256)) 8], ?_, ?_⟩
  · simp [afterPress]
  · simp [reports, keyDownReport, hk', hm']

/-- C1, at a concrete input: with a key already held (buffer
`[2, 0, 4, 0, 0, 0, 0, 0]`), `sendKeyPress(101, 255)` returns and leaves
`[255, 0, 101, 0, 0, 0, 0, 0]`. -/
theorem sendKeyPress_encodes_key_and_modifiers_witness :
    (101 < 256 ∧ 255 < 256 ∧ keyHeld.reportBuffer.length = 8) ∧
    ∃ s', sendKeyPress_2 alwaysReady 1 101 255 keyHeld = some s' ∧
      s'.reportBuffer = [255, 0, 101, 0, 0, 0, 0, 0] := by
  have h := sendKeyPress_encodes_key_and_modifiers alwaysReady 1 101 255 keyHeld
    (by decide) (by decide) (by decide)
  obtain ⟨s', hs'⟩ := h.2 0 (readyAfter_alwaysReady _) (by decide)
  exact ⟨⟨by decide, by decide, by decide⟩, s', hs', (h.1 s' hs').1⟩

/-! ## C2: the two reports of a keystroke -/

/-- C2, as stated, fails for the keystroke `sendKeyStroke(0, 0, false)`: both
submitted reports are the idle report, so the first one is not a non-idle
report. -/
theorem sendKeyStroke_zero_submits_idle_twice :
    (sendKeyStroke_3 alwaysReady 1 0 0 false DigiKeyboard).map
        (fun s' => reports (newEvents DigiKeyboard s')) =
      some [([0, 0, 0, 0, 0, 0, 0, 0], 8), ([0, 0, 0, 0, 0, 0, 0, 0], 8)] := by
  decide

/-- C2, amended: for 8-bit `k` and `m`, every run of `sendKeyStroke(k, m, led)`
that returns makes exactly two submissions, the key-down report
`[m, 0, k, 0, 0, 0, 0, 0]` and then the all-zero report, both of length 8;
the first differs from the idle report exactly when `k` or `m` is not zero;
and the call returns as soon as the driver becomes ready, within the
iteration bound, before each of the two reports. -/
theorem sendKeyStroke_submits_key_down_then_idle (E : Env) (fuel k m : Nat) (led : Bool)
    (s : Device) (hk : k < 256) (hm : m < 256) (hlen : s.reportBuffer.length = 8) :
    (∀ s', sendKeyStroke_3 E fuel k m led s = some s' →
      ∃ new, s'.trace = s.trace ++ new ∧
        reports new = [([m, 0, k, 0, 0, 0, 0, 0], 8), ([0, 0, 0, 0, 0, 0, 0, 0], 8)]) ∧
    (([m, 0, k, 0, 0, 0, 0, 0] : List Nat) ≠ [0, 0, 0, 0, 0, 0, 0, 0] ↔ (k ≠ 0 ∨ m ≠ 0)) ∧
    (∀ n1 n2, ReadyAfter E s.readyChecks n1 → n1 < fuel →
      ReadyAfter E (s.readyChecks + n1 + 1) n2 → n2 < fuel →
      ∃ s', sendKeyStroke_3 E fuel k m led s = some s') := by
  refine ⟨fun s' hs => ?_, keyDownReport_ne_idle_iff k m, fun n1 n2 hr1 hn1 hr2 hn2 =>
    ⟨_, sendKeyStroke_3_of_readyAfter E fuel k m n1 n2 led s hlen hr1 hn1 hr2 hn2⟩⟩
  obtain ⟨n1, n2, _, _, _, _, rfl⟩ := sendKeyStroke_3_eq_some E fuel k m led s s' hlen hs
  have hk' : k % 256 = k := Nat.mod_eq_of_lt hk
  have hm' : m % 256 = m := Nat.mod_eq_of_lt hm
  refine ⟨_, rfl, ?_⟩
  cases led <;> simp [ledEvent, reports, keyDownReport, idleReport, hk', hm']

/-- C2 amended, at a concrete input: `sendKeyStroke(4, 2, true)` on the fresh
device returns after submitting `[2, 0, 4, 0, 0, 0, 0, 0]` and the idle
report. -/
theorem sendKeyStroke_submits_key_down_then_idle_witness :
    (4 < 256 ∧ 2 < 256 ∧ DigiKeyboard.reportBuffer.length = 8) ∧
    ∃ s' new, sendKeyStroke_3 alwaysReady 1 4 2 true DigiKeyboard = some s' ∧
      s'.trace = DigiKeyboard.trace ++ new ∧
      reports new = [([2, 0, 4, 0, 0, 0, 0, 0], 8), ([0, 0, 0, 0, 0, 0, 0, 0], 8)] := by
  have h := sendKeyStroke_submits_key_down_then_idle alwaysReady 1 4 2 true DigiKeyboard
    (by decide) (by decide) (by decide)
  obtain ⟨s', hs'⟩ := h.2.2 0 0 (readyAfter_alwaysReady _) (by decide)
    (readyAfter_alwaysReady _) (by decide)
  obtain ⟨new, h1, h2⟩ := h.1 s' hs'
  exact ⟨⟨by decide, by decide, by decide⟩, s', new, hs', h1, h2⟩

/-! ## C3: visual feedback -/

/-- C3, as stated, fails for the explicit call `sendKeyStroke(k, m)`: after
`enableLEDFeedback()`, `sendKeyStroke(4, 0)` submits the two reports and
never writes the indicator. -/
theorem sendKeyStroke_2_ignores_enabled_feedback :
    (sendKeyStroke_2 alwaysReady 1 4 0 (enableLEDFeedback DigiKeyboard)).map
        (fun s' => effects (newEvents (enableLEDFeedback DigiKeyboard) s')) =
      some [Event.usbSetInterrupt [0, 0, 4, 0, 0, 0, 0, 0] 8,
            Event.usbSetInterrupt [0, 0, 0, 0, 0, 0, 0, 0] 8] := by
  decide

/-- C3, amended: after `enableLEDFeedback()`, a character write that has a
mapping, and an explicit call `sendKeyStroke(k, m, true)`, produce the effect
sequence indicator high, key-down report, idle report, indicator low, so the
indicator is low on return; the two-argument `sendKeyStroke(k, m)` passes
`false` and produces the two reports only.  Each of the three returns as soon
as the driver becomes ready, within the iteration bound, before each of the
two reports. -/
theorem feedback_brackets_write_and_flagged_keystroke (L : KeyLayout) (E : Env)
    (fuel : Nat) (s0 : Device) (hlen : s0.reportBuffer.length = 8) :
    (∀ chr r, (writeData L E chr (enableLEDFeedback s0)).1 ≠ 0 →
      write L E fuel chr (enableLEDFeedback s0) = some r →
      ∃ new, r.1.trace = (enableLEDFeedback s0).trace ++ new ∧
        effects new =
          [Event.digitalWrite_LED_BUILTIN true,
           Event.usbSetInterrupt
             [keycode_to_modifier L (writeData L E chr (enableLEDFeedback s0)).1, 0,
              keycode_to_key L (writeData L E chr (enableLEDFeedback s0)).1, 0, 0, 0, 0, 0] 8,
           Event.usbSetInterrupt [0, 0, 0, 0, 0, 0, 0, 0] 8,
           Event.digitalWrite_LED_BUILTIN false]) ∧
    (∀ k m s', k < 256 → m < 256 →
      sendKeyStroke_3 E fuel k m true (enableLEDFeedback s0) = some s' →
      ∃ new, s'.trace = (enableLEDFeedback s0).trace ++ new ∧
        effects new =
          [Event.digitalWrite_LED_BUILTIN true,
           Event.usbSetInterrupt [m, 0, k, 0, 0, 0, 0, 0] 8,
           Event.usbSetInterrupt [0, 0, 0, 0, 0, 0, 0, 0] 8,
           Event.digitalWrite_LED_BUILTIN false]) ∧
    (∀ k m s', k < 256 → m < 256 →
      sendKeyStroke_2 E fuel k m (enableLEDFeedback s0) = some s' →
      ∃ new, s'.trace = (enableLEDFeedback s0).trace ++ new ∧
        effects new =
          [Event.usbSetInterrupt [m, 0, k, 0, 0, 0, 0, 0] 8,
           Event.usbSetInterrupt [0, 0, 0, 0, 0, 0, 0, 0] 8]) ∧
    (∀ n1 n2, ReadyAfter E s0.readyChecks n1 → n1 < fuel →
      ReadyAfter E (s0.readyChecks + n1 + 1) n2 → n2 < fuel →
      (∀ chr, ∃ r, write L E fuel chr (enableLEDFeedback s0) = some r) ∧
      (∀ k m led, ∃ s', sendKeyStroke_3 E fuel k m led (enableLEDFeedback s0) = some s') ∧
      (∀ k m, ∃ s', sendKeyStroke_2 E fuel k m (enableLEDFeedback s0) = some s')) := by
  have hlen' : (enableLEDFeedback s0).reportBuffer.length = 8 := hlen
  have hled : (enableLEDFeedback s0).sUseFeedbackLed = true := rfl
  refine ⟨?_, ?_, ?_, ?_⟩
  · intro chr r hd hw
    obtain ⟨n1, n2, _, _, _, _, rfl⟩ := write_eq_some_of_mapped L E fuel chr _ r hd hlen' hw
    refine ⟨tableReadEvents chr ++ _, by simp only [afterStroke, List.append_assoc]; rfl, ?_⟩
    simp [hled, ledEvent, effects, keyDownReport, idleReport,
      Nat.mod_eq_of_lt (keycode_to_key_lt L _), Nat.mod_eq_of_lt (keycode_to_modifier_lt L _)]
  · intro k m s' hk hm hs
    obtain ⟨n1, n2, _, _, _, _, rfl⟩ := sendKeyStroke_3_eq_some E fuel k m true _ s' hlen' hs
    refine ⟨_, rfl, ?_⟩
    simp [ledEvent, effects, keyDownReport, idleReport, Nat.mod_eq_of_lt hk, Nat.mod_eq_of_lt hm]
  · intro k m s' hk hm hs
    obtain ⟨n1, n2, _, _, _, _, rfl⟩ := sendKeyStroke_3_eq_some E fuel k m false _ s' hlen' hs
    refine ⟨_, rfl, ?_⟩
    simp [ledEvent, effects, keyDownReport, idleReport, Nat.mod_eq_of_lt hk, Nat.mod_eq_of_lt hm]
  · intro n1 n2 hr1 hn1 hr2 hn2
    refine ⟨fun chr => ?_, fun k m led => ?_, fun k m => ?_⟩
    · by_cases hd : (writeData L E chr (enableLEDFeedback s0)).1 = 0
      · exact ⟨_, write_of_unmapped L E fuel chr _ hd⟩
      · exact ⟨_, write_of_mapped_readyAfter L E fuel chr n1 n2 _ hd hlen' hr1 hn1 hr2 hn2⟩
    · exact ⟨_, sendKeyStroke_3_of_readyAfter E fuel k m n1 n2 led _ hlen' hr1 hn1 hr2 hn2⟩
    · exact ⟨_, sendKeyStroke_3_of_readyAfter E fuel k m n1 n2 false _ hlen' hr1 hn1 hr2 hn2⟩

/-- C3 amended, at a concrete input: with the modelled layout, `write('A')`
after `enableLEDFeedback()` drives the indicator high, submits
`[2, 0, 4, 0, 0, 0, 0, 0]` and the idle report, and drives the indicator low. -/
theorem feedback_brackets_write_and_flagged_keystroke_witness :
    DigiKeyboard.reportBuffer.length = 8 ∧
    ∃ r new, write specLayout alwaysReady 1 65 (enableLEDFeedback DigiKeyboard) = some r ∧
      r.1.trace = (enableLEDFeedback DigiKeyboard).trace ++ new ∧
      effects new =
        [Event.digitalWrite_LED_BUILTIN true,
         Event.usbSetInterrupt [2, 0, 4, 0, 0, 0, 0, 0] 8,
         Event.usbSetInterrupt [0, 0, 0, 0, 0, 0, 0, 0] 8,
         Event.digitalWrite_LED_BUILTIN false] := by
  have h := feedback_brackets_write_and_flagged_keystroke specLayout alwaysReady 1
    DigiKeyboard (by decide)
  obtain ⟨r, hr⟩ := (h.2.2.2 0 0 (readyAfter_alwaysReady _) (by decide)
    (readyAfter_alwaysReady _) (by decide)).1 65
  obtain ⟨new, h1, h2⟩ := h.1 65 r (by decide) hr
  refine ⟨by decide, r, new, hr, h1, ?_⟩
  rw [h2]
  decide

/-! ## C4: characters from `0x80` upwards -/

/-- C4 fails on the code at the byte `0x80`, which is outside the
translation domain: with every layout `write` reads program memory at offset
96 from `keycodes_ascii`, behind the 96 entries of the characters `0x20` to
`0x7F`; with the modelled layout and erased flash behind the table the byte
read is `0xFF`, and a key-down report (keycode 100 with left-shift and
right-alt) and the idle report are submitted. -/
theorem write_0x80_reads_behind_table_and_submits :
    (∀ (L : KeyLayout) (E : Env) (s : Device),
      tableReads (newEvents s (writeData L E 0x80 s).2) = [96]) ∧
    specLayout.keycodes_ascii.length = 96 ∧
    (writeData specLayout alwaysReady 0x80 DigiKeyboard).1 = 0xFF ∧
    (write specLayout alwaysReady 1 0x80 DigiKeyboard).map
        (fun r => reports (newEvents DigiKeyboard r.1)) =
      some [([0x42, 0, 100, 0, 0, 0, 0, 0], 8), ([0, 0, 0, 0, 0, 0, 0, 0], 8)] := by
  refine ⟨fun L E s => ?_, by decide, by decide, by decide⟩
  rw [newEvents_append s _ (tableReadEvents 0x80) (by rw [writeData_snd])]
  decide

/-! ## C5: control characters without a mapping -/

/-- C5: for a character below `0x20` other than backspace, tab, line-feed
and carriage-return, `write(chr)` returns 1 and leaves the whole state as it
was (no report, no indicator write, same report buffer), whatever the driver
does; every run of `write` that returns, returns 1; and `write` returns, for
every character, as soon as the driver becomes ready, within the iteration
bound, before each of the two reports. -/
theorem write_drops_unmapped_control_character (L : KeyLayout) (E : Env) (fuel chr : Nat)
    (s : Device) (hlt : chr < 0x20) (h8 : chr ≠ 8) (h9 : chr ≠ 9) (h10 : chr ≠ 10)
    (h13 : chr ≠ 13) :
    write L E fuel chr s = some (s, 1) ∧
    (∀ c r, write L E fuel c s = some r → r.2 = 1) ∧
    (s.reportBuffer.length = 8 → ∀ n1 n2, ReadyAfter E s.readyChecks n1 → n1 < fuel →
      ReadyAfter E (s.readyChecks + n1 + 1) n2 → n2 < fuel →
      ∀ c, ∃ s', write L E fuel c s = some (s', 1)) := by
  refine ⟨?_, fun c r hw => write_returns_one L E fuel c s r hw,
    fun hlen n1 n2 hr1 hn1 hr2 hn2 c => write_returns L E fuel c n1 n2 s hlen hr1 hn1 hr2 hn2⟩
  have hd := writeData_of_unmapped_control L E chr s hlt h8 h9 h10 h13
  unfold write
  rw [hd]
  simp

/-- C5, at a concrete input: `write(0x01)` on a device with a held key, with
a driver that is never asked, returns 1 and changes nothing. -/
theorem write_drops_unmapped_control_character_witness :
    (1 < 0x20 ∧ 1 ≠ 8 ∧ 1 ≠ 9 ∧ 1 ≠ 10 ∧ 1 ≠ 13) ∧
    write specLayout alwaysReady 0 1 keyHeld = some (keyHeld, 1) :=
  ⟨by decide, (write_drops_unmapped_control_character specLayout alwaysReady 0 1 keyHeld
    (by decide) (by decide) (by decide) (by decide) (by decide)).1⟩

/-! ## C6: backspace, tab, line-feed and carriage-return -/

/-- C6: in a layout whose backspace, tab and enter keycodes (as 8-bit values)
are keycodes without flags, every run of `write('\b')` that returns has
submitted the key-down report with byte 2 the backspace keycode and byte 0
zero, then the idle report; likewise `write('\t')` with the tab keycode and
`write('\n')`, `write('\r')` with the enter keycode; `keycode_to_key` returns
each of the three keycodes unchanged and `keycode_to_modifier` returns 0 for
them; and each write returns as soon as the driver becomes ready, within the
iteration bound, before each of the two reports. -/
theorem write_control_characters_send_plain_keycodes (L : KeyLayout) (E : Env) (fuel : Nat)
    (s : Device) (hlen : s.reportBuffer.length = 8)
    (hbs : PlainKeycode L (L.KEY_BACKSPACE % 256))
    (htab : PlainKeycode L (L.KEY_TAB % 256))
    (hent : PlainKeycode L (L.KEY_ENTER % 256)) :
    (∀ r, write L E fuel 8 s = some r →
      SubmittedKeystroke s r.1 (L.KEY_BACKSPACE % 256) 0) ∧
    (∀ r, write L E fuel 9 s = some r →
      SubmittedKeystroke s r.1 (L.KEY_TAB % 256) 0) ∧
    (∀ r, write L E fuel 10 s = some r →
      SubmittedKeystroke s r.1 (L.KEY_ENTER % 256) 0) ∧
    (∀ r, write L E fuel 13 s = some r →
      SubmittedKeystroke s r.1 (L.KEY_ENTER % 256) 0) ∧
    (keycode_to_key L (L.KEY_BACKSPACE % 256) = L.KEY_BACKSPACE % 256 ∧
      keycode_to_modifier L (L.KEY_BACKSPACE % 256) = 0) ∧
    (keycode_to_key L (L.KEY_TAB % 256) = L.KEY_TAB % 256 ∧
      keycode_to_modifier L (L.KEY_TAB % 256) = 0) ∧
    (keycode_to_key L (L.KEY_ENTER % 256) = L.KEY_ENTER % 256 ∧
      keycode_to_modifier L (L.KEY_ENTER % 256) = 0) ∧
    (∀ n1 n2, ReadyAfter E s.readyChecks n1 → n1 < fuel →
      ReadyAfter E (s.readyChecks + n1 + 1) n2 → n2 < fuel →
      ∀ chr, ∃ s', write L E fuel chr s = some (s', 1)) := by
  have d8 : (writeData L E 8 s).1 = L.KEY_BACKSPACE % 256 := by simp [writeData]
  have d9 : (writeData L E 9 s).1 = L.KEY_TAB % 256 := by simp [writeData]
  have d10 : (writeData L E 10 s).1 = L.KEY_ENTER % 256 := by simp [writeData]
  have d13 : (writeData L E 13 s).1 = L.KEY_ENTER % 256 := by simp [writeData]
  have kbs := keycode_to_key_plain L _ hbs
  have mbs := keycode_to_modifier_plain L _ hbs
  have ktab := keycode_to_key_plain L _ htab
  have mtab := keycode_to_modifier_plain L _ htab
  have kent := keycode_to_key_plain L _ hent
  have ment := keycode_to_modifier_plain L _ hent
  refine ⟨fun r hw => ?_, fun r hw => ?_, fun r hw => ?_, fun r hw => ?_,
    ⟨kbs, mbs⟩, ⟨ktab, mtab⟩, ⟨kent, ment⟩,
    fun n1 n2 hr1 hn1 hr2 hn2 chr => write_returns L E fuel chr n1 n2 s hlen hr1 hn1 hr2 hn2⟩
  · have h := write_submits_keystroke L E fuel 8 s r
      (by rw [d8]; exact Nat.pos_iff_ne_zero.mp hbs.1) hlen hw
    rwa [d8, kbs, mbs] at h
  · have h := write_submits_keystroke L E fuel 9 s r
      (by rw [d9]; exact Nat.pos_iff_ne_zero.mp htab.1) hlen hw
    rwa [d9, ktab, mtab] at h
  · have h := write_submits_keystroke L E fuel 10 s r
      (by rw [d10]; exact Nat.pos_iff_ne_zero.mp hent.1) hlen hw
    rwa [d10, kent, ment] at h
  · have h := write_submits_keystroke L E fuel 13 s r
      (by rw [d13]; exact Nat.pos_iff_ne_zero.mp hent.1) hlen hw
    rwa [d13, kent, ment] at h

/-- C6, at a concrete input: with the modelled layout, `write('\b')` on the
fresh device returns after submitting `[0, 0, 42, 0, 0, 0, 0, 0]` and the idle
report. -/
theorem write_control_characters_send_plain_keycodes_witness :
    (DigiKeyboard.reportBuffer.length = 8 ∧
      PlainKeycode specLayout (specLayout.KEY_BACKSPACE % 256) ∧
      PlainKeycode specLayout (specLayout.KEY_TAB % 256) ∧
      PlainKeycode specLayout (specLayout.KEY_ENTER % 256)) ∧
    ∃ s', write specLayout alwaysReady 1 8 DigiKeyboard = some (s', 1) ∧
      SubmittedKeystroke DigiKeyboard s' 42 0 := by
  have hbs : PlainKeycode specLayout (specLayout.KEY_BACKSPACE % 256) := by decide
  have htab : PlainKeycode specLayout (specLayout.KEY_TAB % 256) := by decide
  have hent : PlainKeycode specLayout (specLayout.KEY_ENTER % 256) := by decide
  have h := write_control_characters_send_plain_keycodes specLayout alwaysReady 1
    DigiKeyboard (by decide) hbs htab hent
  obtain ⟨s', hs'⟩ := h.2.2.2.2.2.2.2 0 0 (readyAfter_alwaysReady _) (by decide)
    (readyAfter_alwaysReady _) (by decide) 8
  exact ⟨⟨by decide, hbs, htab, hent⟩, s', hs', h.1 (s', 1) hs'⟩

/-! ## C7: polling while the driver is busy -/

/-- C7: if the readiness check answers false `N` times and then true, the
loop of `sendKeyPress` ends in a state with the report buffer it started with,
having added to the trace `N` rounds of failed check, `usbPoll()`,
`_delay_ms(5)` and then the successful check: `N` polls and no submission;
`sendKeyPress(k, m)` then returns, having added its single submission after
them. -/
theorem sendKeyPress_polls_once_per_failed_check (E : Env) (fuel k m N : Nat) (s : Device)
    (hlen : s.reportBuffer.length = 8) (hr : ReadyAfter E s.readyChecks N)
    (hN : N < fuel) :
    ∃ s1, waitForInterruptReady E fuel s = some s1 ∧
      s1.reportBuffer = s.reportBuffer ∧
      s1.trace = s.trace ++ busyRounds N ++ [Event.usbInterruptIsReady true] ∧
      polls (busyRounds N) = N ∧
      reports (busyRounds N ++ [Event.usbInterruptIsReady true]) = [] ∧
      sendKeyPress_2 E fuel k m s = some (fillAndSubmit k m s1) ∧
      (fillAndSubmit k m s1).trace =
        s1.trace ++ [Event.usbSetInterrupt [m % 256, 0, k % 256, 0, 0, 0, 0, 0] 8] := by
  have hw := waitForInterruptReady_of_readyAfter E fuel N s hr hN
  refine ⟨afterWait s N, hw, rfl, rfl, polls_busyRounds N, by simp [reports], ?_, ?_⟩
  · simp [sendKeyPress_2, hw]
  · rw [fillAndSubmit_afterWait s k m N hlen]
    simp [afterPress, afterWait, keyDownReport]

/-- C7, at a concrete input: with a driver that is busy for three checks,
`sendKeyPress(4, 2)` on the fresh device polls three times before its
submission. -/
theorem sendKeyPress_polls_once_per_failed_check_witness :
    (DigiKeyboard.reportBuffer.length = 8 ∧
      ReadyAfter (readyEvery 3) DigiKeyboard.readyChecks 3 ∧ 3 < 4) ∧
    (sendKeyPress_2 (readyEvery 3) 4 4 2 DigiKeyboard).map (newEvents DigiKeyboard) =
      some [Event.usbInterruptIsReady false, Event.usbPoll, Event.delay_ms 5,
            Event.usbInterruptIsReady false, Event.usbPoll, Event.delay_ms 5,
            Event.usbInterruptIsReady false, Event.usbPoll, Event.delay_ms 5,
            Event.usbInterruptIsReady true,
            Event.usbSetInterrupt [2, 0, 4, 0, 0, 0, 0, 0] 8] := by
  have hr : ReadyAfter (readyEvery 3) DigiKeyboard.readyChecks 3 := by decide
  obtain ⟨s1, _, _, h3, _, _, h6, h7⟩ := sendKeyPress_polls_once_per_failed_check
    (readyEvery 3) 4 4 2 3 DigiKeyboard (by decide) hr (by decide)
  refine ⟨⟨by decide, hr, by decide⟩, ?_⟩
  rw [h6, Option.map_some', newEvents_append _ _ _ (by rw [h7, h3, List.append_assoc,
    List.append_assoc])]
  rfl

/-! ## C8: printable characters -/

/-- C8: for a printable character `chr` (`0x20 ≤ chr ≤ 0x7E`) whose table
entry `e` (as a byte) is not zero, every run of `write(chr)` that returns has
submitted the key-down report with byte 2 `keycode_to_key(e)` and byte 0
`keycode_to_modifier(e)`, then the idle report; `keycode_to_modifier(e)` is
the OR of the shift, right-alt and right-ctrl bits of the flags that `e` has;
an entry that is a keycode without flags OR-ed with the shift flag (as for
`'A'`) gives that keycode with the shift bit set in the modifier, and an entry
that is a keycode without flags (as for `' '`) gives that keycode with
modifier 0; and `write` returns as soon as the driver becomes ready, within
the iteration bound, before each of the two reports. -/
theorem write_printable_sends_table_entry (L : KeyLayout) (E : Env) (fuel chr e0 : Nat)
    (s : Device) (hlen : s.reportBuffer.length = 8) (hlo : 0x20 ≤ chr) (hhi : chr ≤ 0x7E)
    (hT : L.keycodes_ascii[chr - 0x20]? = some e0) (he : e0 % 256 ≠ 0) :
    (∀ r, write L E fuel chr s = some r →
      SubmittedKeystroke s r.1 (keycode_to_key L (e0 % 256))
        (keycode_to_modifier L (e0 % 256))) ∧
    keycode_to_modifier L (e0 % 256) = modifierOfFlags L (e0 % 256) ∧
    (∀ ka sm, L.SHIFT_MASK = some sm → 0 < sm → sm < 256 →
      sm &&& L.KEYCODE_MASK_SCANCODE = 0 → PlainKeycode L ka → e0 = ka ||| sm →
      keycode_to_key L e0 = ka ∧
      keycode_to_modifier L e0 &&& (L.MODIFIERKEY_SHIFT % 256) =
        L.MODIFIERKEY_SHIFT % 256) ∧
    (PlainKeycode L e0 → keycode_to_key L e0 = e0 ∧ keycode_to_modifier L e0 = 0) ∧
    (∀ n1 n2, ReadyAfter E s.readyChecks n1 → n1 < fuel →
      ReadyAfter E (s.readyChecks + n1 + 1) n2 → n2 < fuel →
      ∃ s', write L E fuel chr s = some (s', 1)) := by
  have hd := writeData_printable L E chr e0 s hlo hhi hT
  refine ⟨fun r hw => ?_,
    keycode_to_modifier_eq_modifierOfFlags L _ (Nat.mod_lt _ (by decide)),
    fun ka sm hsm h0 hlt hdisj hka hE => ?_,
    fun hp => ⟨keycode_to_key_plain L e0 hp, keycode_to_modifier_plain L e0 hp⟩,
    fun n1 n2 hr1 hn1 hr2 hn2 => write_returns L E fuel chr n1 n2 s hlen hr1 hn1 hr2 hn2⟩
  · have h := write_submits_keystroke L E fuel chr s r (by rw [hd]; exact he) hlen hw
    rwa [hd] at h
  · rw [hE]
    exact keycode_with_shift_flag L ka sm hsm h0 hlt hdisj hka

/-- C8, at a concrete input: with the modelled layout, `write('A')` on the
fresh device returns after submitting `[2, 0, 4, 0, 0, 0, 0, 0]` (letter-A
keycode 4, shift bit) and the idle report. -/
theorem write_printable_sends_table_entry_witness :
    (DigiKeyboard.reportBuffer.length = 8 ∧ 0x20 ≤ 65 ∧ 65 ≤ 0x7E ∧
      specLayout.keycodes_ascii[65 - 0x20]? = some 68 ∧ 68 % 256 ≠ 0) ∧
    ∃ s', write specLayout alwaysReady 1 65 DigiKeyboard = some (s', 1) ∧
      SubmittedKeystroke DigiKeyboard s' 4 2 := by
  have h := write_printable_sends_table_entry specLayout alwaysReady 1 65 68 DigiKeyboard
    (by decide) (by decide) (by decide) (by decide) (by decide)
  obtain ⟨s', hs'⟩ := h.2.2.2.2 0 0 (readyAfter_alwaysReady _) (by decide)
    (readyAfter_alwaysReady _) (by decide)
  exact ⟨⟨by decide, by decide, by decide, by decide, by decide⟩, s', hs', h.1 (s', 1) hs'⟩

/-! ## C9: the idle report between keystrokes -/

/-- C9: the report buffer is all zero after construction; from a state whose
buffer is the idle report, every run of `sendKeyStroke` (in each overload) and
of `write` that returns leaves the idle report, and `update`,
`enableLEDFeedback`, `disableLEDFeedback` and `usbFunctionSetup` leave it as it
is; from any 8-byte buffer at all, `sendKeyStroke` and a `write` of a
character with a mapping end with the idle report; and these operations
return as soon as the driver becomes ready, within the iteration bound, before
each of the two reports. -/
theorem idle_report_between_keystrokes (L : KeyLayout) (E : Env) (U : UsbDrv) (fuel : Nat)
    (s : Device) (hidle : s.reportBuffer = [0, 0, 0, 0, 0, 0, 0, 0]) :
    (∀ raw, raw.length = 8 → (DigiKeyboardDevice raw).reportBuffer = [0, 0, 0, 0, 0, 0, 0, 0]) ∧
    (∀ k m led s', sendKeyStroke_3 E fuel k m led s = some s' →
      s'.reportBuffer = [0, 0, 0, 0, 0, 0, 0, 0]) ∧
    (∀ k m s', sendKeyStroke_2 E fuel k m s = some s' →
      s'.reportBuffer = [0, 0, 0, 0, 0, 0, 0, 0]) ∧
    (∀ k s', sendKeyStroke_1 E fuel k s = some s' →
      s'.reportBuffer = [0, 0, 0, 0, 0, 0, 0, 0]) ∧
    (∀ chr r, write L E fuel chr s = some r → r.1.reportBuffer = [0, 0, 0, 0, 0, 0, 0, 0]) ∧
    (update s).reportBuffer = [0, 0, 0, 0, 0, 0, 0, 0] ∧
    (enableLEDFeedback s).reportBuffer = [0, 0, 0, 0, 0, 0, 0, 0] ∧
    (disableLEDFeedback s).reportBuffer = [0, 0, 0, 0, 0, 0, 0, 0] ∧
    (∀ data, (usbFunctionSetup U data s).1.reportBuffer = [0, 0, 0, 0, 0, 0, 0, 0]) ∧
    (∀ t : Device, t.reportBuffer.length = 8 →
      (∀ k m led t', sendKeyStroke_3 E fuel k m led t = some t' →
        t'.reportBuffer = [0, 0, 0, 0, 0, 0, 0, 0]) ∧
      (∀ chr r, (writeData L E chr t).1 ≠ 0 → write L E fuel chr t = some r →
        r.1.reportBuffer = [0, 0, 0, 0, 0, 0, 0, 0])) ∧
    (∀ n1 n2, ReadyAfter E s.readyChecks n1 → n1 < fuel →
      ReadyAfter E (s.readyChecks + n1 + 1) n2 → n2 < fuel →
      (∀ k m led, ∃ s', sendKeyStroke_3 E fuel k m led s = some s') ∧
      (∀ chr, ∃ s', write L E fuel chr s = some (s', 1))) := by
  have hlen : s.reportBuffer.length = 8 := by rw [hidle]; rfl
  have stroke : ∀ (t : Device), t.reportBuffer.length = 8 → ∀ k m led t',
      sendKeyStroke_3 E fuel k m led t = some t' →
      t'.reportBuffer = [0, 0, 0, 0, 0, 0, 0, 0] := by
    intro t ht k m led t' h
    obtain ⟨n1, n2, _, _, _, _, rfl⟩ := sendKeyStroke_3_eq_some E fuel k m led t t' ht h
    rfl
  refine ⟨fun raw hraw => ?_, stroke s hlen, fun k m s' h => stroke s hlen k m false s' h,
    fun k s' h => stroke s hlen k 0 false s' h,
    fun chr r hw => write_reportBuffer_idle L E fuel chr s r hidle hw,
    hidle, hidle, hidle, fun data => ?_, fun t ht => ⟨stroke t ht, fun chr r hd hw => ?_⟩,
    fun n1 n2 hr1 hn1 hr2 hn2 => ⟨fun k m led =>
      ⟨_, sendKeyStroke_3_of_readyAfter E fuel k m n1 n2 led s hlen hr1 hn1 hr2 hn2⟩,
      fun chr => write_returns L E fuel chr n1 n2 s hlen hr1 hn1 hr2 hn2⟩⟩
  · exact memset_reportBuffer raw hraw
  · unfold usbFunctionSetup
    simp only
    split_ifs <;> exact hidle
  · obtain ⟨n1, n2, _, _, _, _, rfl⟩ := write_eq_some_of_mapped L E fuel chr t r hd ht hw
    rfl

/-- C9, at a concrete input: on the fresh device, whose buffer is idle,
`sendKeyStroke(4, 2, true)` returns with the idle report in the buffer. -/
theorem idle_report_between_keystrokes_witness :
    DigiKeyboard.reportBuffer = [0, 0, 0, 0, 0, 0, 0, 0] ∧
    ∃ s', sendKeyStroke_3 alwaysReady 1 4 2 true DigiKeyboard = some s' ∧
      s'.reportBuffer = [0, 0, 0, 0, 0, 0, 0, 0] := by
  have h := idle_report_between_keystrokes specLayout alwaysReady
    { USBRQ_TYPE_MASK := 0x60, USBRQ_TYPE_CLASS := 0x20, USBRQ_HID_GET_REPORT := 1,
      USBRQ_HID_GET_IDLE := 2, USBRQ_HID_SET_IDLE := 10 } 1 DigiKeyboard (by decide)
  obtain ⟨s', hs'⟩ := (h.2.2.2.2.2.2.2.2.2.2 0 0 (readyAfter_alwaysReady _) (by decide)
    (readyAfter_alwaysReady _) (by decide)).1 4 2 true
  exact ⟨by decide, s', hs', h.2.1 4 2 true s' hs'⟩

/-! ## C10: the report descriptor -/

/-- C10: read by the HID item grammar, `usbHidReportDescriptor` declares, in
order, an input field of 8 one-bit modifiers (usages `0xE0..0xE7`, logical
range 0..1), a constant input field of one 8-bit reserved byte, an input
array of six 8-bit keycodes (usages and logical range 0..101), an output field
of 5 one-bit LEDs and a constant output field of 3 bits; the input fields
total 64 bits, which is 8 times `sizeof(reportBuffer)`, the output fields 8
bits; and the length passed with every report, by the constructor and by
`sendKeyPress`, is `sizeof(reportBuffer)`. -/
theorem descriptor_declares_eight_byte_input_report :
    descriptorFields usbHidReportDescriptor = some
      [{ isOutput := false, flags := 0x02, usagePage := 0x07,
         usageMinimum := some 0xE0, usageMaximum := some 0xE7,
         logicalMinimum := 0, logicalMaximum := 1, reportSize := 1, reportCount := 8 },
       { isOutput := false, flags := 0x01, usagePage := 0x07,
         usageMinimum := none, usageMaximum := none,
         logicalMinimum := 0, logicalMaximum := 1, reportSize := 8, reportCount := 1 },
       { isOutput := false, flags := 0x00, usagePage := 0x07,
         usageMinimum := some 0, usageMaximum := some 101,
         logicalMinimum := 0, logicalMaximum := 101, reportSize := 8, reportCount := 6 },
       { isOutput := true, flags := 0x02, usagePage := 0x08,
         usageMinimum := some 1, usageMaximum := some 5,
         logicalMinimum := 0, logicalMaximum := 101, reportSize := 1, reportCount := 5 },
       { isOutput := true, flags := 0x01, usagePage := 0x08,
         usageMinimum := none, usageMaximum := none,
         logicalMinimum := 0, logicalMaximum := 101, reportSize := 3, reportCount := 1 }] ∧
    (descriptorFields usbHidReportDescriptor).map
        (fun fs => fieldBits (fs.filter (fun f => !f.isOutput))) = some 64 ∧
    64 = 8 * sizeofReportBuffer ∧
    (descriptorFields usbHidReportDescriptor).map
        (fun fs => fieldBits (fs.filter (fun f => f.isOutput))) = some 8 ∧
    (∀ raw, reports (DigiKeyboardDevice raw).trace =
      [((DigiKeyboardDevice raw).reportBuffer, sizeofReportBuffer)]) ∧
    (∀ E fuel k m s s', sendKeyPress_2 E fuel k m s = some s' →
      ∀ p ∈ reports (newEvents s s'), p.2 = sizeofReportBuffer) := by
  refine ⟨by decide, by decide, by decide, by decide, fun raw => rfl, ?_⟩
  intro E fuel k m s s' hs p hp
  obtain ⟨n, buf, ht⟩ := sendKeyPress_2_trace E fuel k m s s' hs
  rw [newEvents_append s s' _ ht] at hp
  simp [reports] at hp
  rw [hp]

/-! ## C11: setup requests -/

/-- C11: for every setup packet, `usbFunctionSetup` points `usbMsgPtr` at the
report buffer and returns 0, makes no collaborator call, and leaves the report
buffer and the feedback flag as they were; on a class request `SET_IDLE` it
stores byte 3 of the packet, the high byte of `wValue`, in `idleRate`, and on
every other request, `GET_REPORT` and `GET_IDLE` among them, `idleRate` is
unchanged.  The request codes are taken to be distinct. -/
theorem usbFunctionSetup_stores_idle_rate_only (U : UsbDrv) (data : List Nat) (s : Device)
    (h1 : U.USBRQ_HID_SET_IDLE ≠ U.USBRQ_HID_GET_REPORT)
    (h2 : U.USBRQ_HID_SET_IDLE ≠ U.USBRQ_HID_GET_IDLE) :
    (usbFunctionSetup U data s).1.usbMsgPtr = MsgPtr.reportBuffer ∧
    (usbFunctionSetup U data s).2 = 0 ∧
    (usbFunctionSetup U data s).1.reportBuffer = s.reportBuffer ∧
    (usbFunctionSetup U data s).1.sUseFeedbackLed = s.sUseFeedbackLed ∧
    (usbFunctionSetup U data s).1.trace = s.trace ∧
    (isClassRequest U data U.USBRQ_HID_SET_IDLE →
      (usbFunctionSetup U data s).1.idleRate = data.getD 3 0 % 256) ∧
    (¬ isClassRequest U data U.USBRQ_HID_SET_IDLE →
      (usbFunctionSetup U data s).1.idleRate = s.idleRate) ∧
    (isClassRequest U data U.USBRQ_HID_GET_REPORT ∨
        isClassRequest U data U.USBRQ_HID_GET_IDLE →
      (usbFunctionSetup U data s).1 = { s with usbMsgPtr := MsgPtr.reportBuffer }) := by
  unfold isClassRequest usbFunctionSetup
  simp only
  refine ⟨?_, ?_, ?_, ?_, ?_, ?_, ?_, ?_⟩
  · split_ifs <;> rfl
  · split_ifs <;> rfl
  · split_ifs <;> rfl
  · split_ifs <;> rfl
  · split_ifs <;> rfl
  · rintro ⟨hc, hr⟩
    rw [if_pos hc, if_neg (by rw [hr]; exact h1), if_neg (by rw [hr]; exact h2), if_pos hr]
  · intro hn
    split_ifs with hc ha hb hr
    · rfl
    · rfl
    · exact absurd ⟨hc, hr⟩ hn
    · rfl
    · rfl
  · rintro (⟨hc, hr⟩ | ⟨hc, hr⟩)
    · rw [if_pos hc, if_pos hr]
    · rw [if_pos hc]
      split_ifs <;> rfl

/-- C11, at a concrete input: with the HID request codes, the class request
`SET_IDLE` with `wValue = 0x7D00` sets `idleRate` to `0x7D` on the device with
a held key, and changes nothing else but `usbMsgPtr`. -/
theorem usbFunctionSetup_stores_idle_rate_only_witness :
    (hidRequestCodes.USBRQ_HID_SET_IDLE ≠ hidRequestCodes.USBRQ_HID_GET_REPORT ∧
      hidRequestCodes.USBRQ_HID_SET_IDLE ≠ hidRequestCodes.USBRQ_HID_GET_IDLE ∧
      isClassRequest hidRequestCodes [0x21, 0x0A, 0x00, 0x7D, 0, 0, 0, 0]
        hidRequestCodes.USBRQ_HID_SET_IDLE) ∧
    (usbFunctionSetup hidRequestCodes [0x21, 0x0A, 0x00, 0x7D, 0, 0, 0, 0] keyHeld).1.idleRate
      = 0x7D ∧
    (usbFunctionSetup hidRequestCodes [0x21, 0x0A, 0x00, 0x7D, 0, 0, 0, 0]
      keyHeld).1.reportBuffer = [2, 0, 4, 0, 0, 0, 0, 0] := by
  have h := usbFunctionSetup_stores_idle_rate_only hidRequestCodes
    [0x21, 0x0A, 0x00, 0x7D, 0, 0, 0, 0] keyHeld (by decide) (by decide)
  refine ⟨⟨by decide, by decide, by decide⟩, ?_, ?_⟩
  · rw [h.2.2.2.2.2.1 (by decide)]
    decide
  · rw [h.2.2.1]
    decide

/-! ## C12: the cooperative delay -/

/-- C12: for a duration `0 < milli` (a `long`) and a clock whose successive
readings advance, modulo `2 ^ 32`, by less than `2 ^ 31`, every run of
`delay(milli)` that returns has made `n ≥ 1` iterations, each a clock reading
followed by one `usbPoll()`, and the clock advanced by at least `milli` over
these `n` steps and by less than `milli` over any fewer; `delay` does return
once the clock has advanced by `milli` within the iteration bound; and for
`milli ≤ 0` it returns after its first clock reading, without a poll. -/
theorem delay_returns_after_requested_time (E : Env) (fuel : Nat) (milli : Int) (s : Device)
    (h0 : 0 < milli) (h1 : milli < 2 ^ 31)
    (hstep : ∀ i, clockStep E (s.clockReads + i) < 2 ^ 31) :
    (∀ s', delay E fuel milli s = some s' →
      ∃ n, 0 < n ∧ n < fuel ∧ milli ≤ (clockAdvance E s.clockReads n : Int) ∧
        (∀ j, j < n → (clockAdvance E s.clockReads j : Int) < milli) ∧
        s' = afterDelay E s n ∧ polls (newEvents s s') = n) ∧
    (∀ n, milli ≤ (clockAdvance E s.clockReads n : Int) → n < fuel →
      ∃ s', delay E fuel milli s = some s') ∧
    (∀ m : Int, -2 ^ 31 ≤ m → m ≤ 0 → 0 < fuel →
      delay E fuel m s = some (afterDelay E s 0) ∧
      polls (newEvents s (afterDelay E s 0)) = 0) := by
  refine ⟨fun s' h => ?_, fun n hle hn => ?_, fun m hlo hhi hf => ⟨?_, ?_⟩⟩
  · have h' := h
    unfold delay at h'
    simp only at h'
    rw [toLong_toULong milli (by omega) h1] at h'
    obtain ⟨n, hn, hmin, hle⟩ := delayLoop_returns_after_advance E fuel milli s.clockReads
      _ s' rfl (by omega) h1 hstep h'
    have hpos : 0 < n := by
      rcases Nat.eq_zero_or_pos n with hz | hp
      · subst hz
        simp only [clockAdvance, Nat.cast_zero] at hle
        omega
      · exact hp
    have hs' := delay_of_advance E fuel n milli s (by omega) h1 hstep hmin hle hn
    rw [h, Option.some.injEq] at hs'
    subst hs'
    exact ⟨n, hpos, hn, hle, hmin, rfl, polls_newEvents_afterDelay E s n⟩
  · have hex : ∃ k, milli ≤ (clockAdvance E s.clockReads k : Int) := ⟨n, hle⟩
    refine ⟨_, delay_of_advance E fuel (Nat.find hex) milli s (by omega) h1 hstep
      (fun j hj => ?_) (Nat.find_spec hex) (Nat.lt_of_le_of_lt (Nat.find_le hle) hn)⟩
    have := Nat.find_min hex hj
    omega
  · cases fuel with
    | zero => omega
    | succ f =>
      unfold delay
      simp only
      rw [toLong_toULong m hlo (by omega), delayLoop, if_neg (by omega)]
      simp [afterDelay, delayRounds]
  · exact polls_newEvents_afterDelay E s 0

/-- C12, at a concrete input: with a clock that advances by one millisecond
per reading, `delay(3)` on the fresh device returns after at least one
iteration, with one poll per iteration and a clock advance of at least 3. -/
theorem delay_returns_after_requested_time_witness :
    ((0 : Int) < 3 ∧ (3 : Int) < 2 ^ 31 ∧
      ∀ i, clockStep alwaysReady (DigiKeyboard.clockReads + i) < 2 ^ 31) ∧
    ∃ s' n, delay alwaysReady 5 3 DigiKeyboard = some s' ∧ 0 < n ∧
      polls (newEvents DigiKeyboard s') = n ∧
      (3 : Int) ≤ (clockAdvance alwaysReady DigiKeyboard.clockReads n : Int) := by
  have hstep : ∀ i, clockStep alwaysReady (DigiKeyboard.clockReads + i) < 2 ^ 31 := by
    intro i
    simp only [clockStep, alwaysReady]
    omega
  have h := delay_returns_after_requested_time alwaysReady 5 3 DigiKeyboard (by decide)
    (by decide) hstep
  obtain ⟨s', hs'⟩ := h.2.1 3 (by decide) (by decide)
  obtain ⟨n, hpos, _, hle, _, _, hp⟩ := h.1 s' hs'
  exact ⟨⟨by decide, by decide, hstep⟩, s', n, hs', hpos, hp, hle⟩

/-! ## C13: the same character gives the same report -/

/-- C13: with a table that covers the printable characters, for a character
of the translation domain any two runs of `write` that return, from any two
device states and with any two drivers, have submitted the same reports: the
key-down report bytes depend on the character and the layout only; and each
run returns as soon as its driver becomes ready, within the iteration bound,
before each of the two reports. -/
theorem write_report_depends_on_character_only (L : KeyLayout) (E1 E2 : Env)
    (fuel1 fuel2 chr : Nat) (s1 s2 : Device) (hT : 95 ≤ L.keycodes_ascii.length)
    (hdom : InTranslationDomain chr) (hlen1 : s1.reportBuffer.length = 8)
    (hlen2 : s2.reportBuffer.length = 8) :
    (∀ r1 r2, write L E1 fuel1 chr s1 = some r1 → write L E2 fuel2 chr s2 = some r2 →
      reports (newEvents s1 r1.1) = reports (newEvents s2 r2.1)) ∧
    (∀ n1 n2, ReadyAfter E1 s1.readyChecks n1 → n1 < fuel1 →
      ReadyAfter E1 (s1.readyChecks + n1 + 1) n2 → n2 < fuel1 →
      ∃ s', write L E1 fuel1 chr s1 = some (s', 1)) ∧
    (∀ n1 n2, ReadyAfter E2 s2.readyChecks n1 → n1 < fuel2 →
      ReadyAfter E2 (s2.readyChecks + n1 + 1) n2 → n2 < fuel2 →
      ∃ s', write L E2 fuel2 chr s2 = some (s', 1)) := by
  refine ⟨fun r1 r2 h1 h2 => ?_,
    fun n1 n2 hr1 hn1 hr2 hn2 => write_returns L E1 fuel1 chr n1 n2 s1 hlen1 hr1 hn1 hr2 hn2,
    fun n1 n2 hr1 hn1 hr2 hn2 => write_returns L E2 fuel2 chr n1 n2 s2 hlen2 hr1 hn1 hr2 hn2⟩
  have hd := writeData_fst_of_table L E1 E2 chr s1 s2 hT hdom
  by_cases h0 : (writeData L E1 chr s1).1 = 0
  · rw [write_reports_of_unmapped L E1 fuel1 chr s1 r1 h0 h1,
      write_reports_of_unmapped L E2 fuel2 chr s2 r2 (by rw [← hd]; exact h0) h2]
  · have k1 := write_submits_keystroke L E1 fuel1 chr s1 r1 h0 hlen1 h1
    have k2 := write_submits_keystroke L E2 fuel2 chr s2 r2 (by rw [← hd]; exact h0) hlen2 h2
    rw [k1.2, k2.2, hd]

/-- C13, at a concrete input: with the modelled layout, `write('A')` on the
fresh device with a ready driver, and on a device with a held key, feedback
enabled and a driver that is busy twice before each report, both return and
have submitted the same two reports. -/
theorem write_report_depends_on_character_only_witness :
    (95 ≤ specLayout.keycodes_ascii.length ∧ InTranslationDomain 65 ∧
      DigiKeyboard.reportBuffer.length = 8 ∧
      (enableLEDFeedback keyHeld).reportBuffer.length = 8) ∧
    ∃ t1 t2, write specLayout alwaysReady 1 65 DigiKeyboard = some (t1, 1) ∧
      write specLayout (readyEvery 2) 3 65 (enableLEDFeedback keyHeld) = some (t2, 1) ∧
      reports (newEvents DigiKeyboard t1) =
        reports (newEvents (enableLEDFeedback keyHeld) t2) := by
  have h := write_report_depends_on_character_only specLayout alwaysReady (readyEvery 2)
    1 3 65 DigiKeyboard (enableLEDFeedback keyHeld) (by decide) (by decide) (by decide)
    (by decide)
  obtain ⟨t1, ht1⟩ := h.2.1 0 0 (readyAfter_alwaysReady _) (by decide)
    (readyAfter_alwaysReady _) (by decide)
  obtain ⟨t2, ht2⟩ := h.2.2 1 2 (by decide) (by decide) (by decide) (by decide)
  exact ⟨⟨by decide, by decide, by decide, by decide⟩, t1, t2, ht1, ht2,
    h.1 (t1, 1) (t2, 1) ht1 ht2⟩

/-! ## C14: the sentinel of `keycode_to_key` -/

/-- C14: for every table entry `e` (a byte), `keycode_to_key(e)` is
`KEY_NON_US_BS` (as an 8-bit value) when `e & KEYCODE_MASK_SCANCODE` equals
`KEY_NON_US_BS_MAPPING`, and is `e & KEYCODE_MASK_SCANCODE` itself in every
other case; two entries with the same scancode part give the same keycode,
whatever their other bits. -/
theorem keycode_to_key_remaps_sentinel_only (L : KeyLayout) (e : Nat) (he : e < 256) :
    (e &&& L.KEYCODE_MASK_SCANCODE = L.KEY_NON_US_BS_MAPPING →
      keycode_to_key L e = L.KEY_NON_US_BS % 256) ∧
    (e &&& L.KEYCODE_MASK_SCANCODE = L.KEY_NON_US_BS_MAPPING → L.KEY_NON_US_BS < 256 →
      keycode_to_key L e = L.KEY_NON_US_BS) ∧
    (e &&& L.KEYCODE_MASK_SCANCODE ≠ L.KEY_NON_US_BS_MAPPING →
      keycode_to_key L e = e &&& L.KEYCODE_MASK_SCANCODE) ∧
    (∀ e', e' < 256 → e' &&& L.KEYCODE_MASK_SCANCODE = e &&& L.KEYCODE_MASK_SCANCODE →
      keycode_to_key L e' = keycode_to_key L e) := by
  have hmod : ∀ x, x < 256 → (x % 256 &&& L.KEYCODE_MASK_SCANCODE) % 256 =
      x &&& L.KEYCODE_MASK_SCANCODE := by
    intro x hx
    rw [Nat.mod_eq_of_lt hx]
    exact Nat.mod_eq_of_lt (Nat.lt_of_le_of_lt Nat.and_le_left hx)
  have hkey : ∀ x, x < 256 → keycode_to_key L x =
      if x &&& L.KEYCODE_MASK_SCANCODE = L.KEY_NON_US_BS_MAPPING then L.KEY_NON_US_BS % 256
      else x &&& L.KEYCODE_MASK_SCANCODE := by
    intro x hx
    unfold keycode_to_key
    simp only [hmod x hx]
  refine ⟨fun h => ?_, fun h hb => ?_, fun h => ?_, fun e' he' h => ?_⟩
  · rw [hkey e he, if_pos h]
  · rw [hkey e he, if_pos h, Nat.mod_eq_of_lt hb]
  · rw [hkey e he, if_neg h]
  · rw [hkey e he, hkey e' he', h]

/-- C14, at a concrete input: in the modelled layout the entry `0xFF` (all
flags, scancode part `0x3F`, the sentinel) gives keycode 100, and the entry 68
(`'A'`: shift flag, scancode part 4) gives keycode 4. -/
theorem keycode_to_key_remaps_sentinel_only_witness :
    (0xFF < 256 ∧ 68 < 256) ∧
    keycode_to_key specLayout 0xFF = 100 ∧ keycode_to_key specLayout 68 = 4 := by
  have h1 := keycode_to_key_remaps_sentinel_only specLayout 0xFF (by decide)
  have h2 := keycode_to_key_remaps_sentinel_only specLayout 68 (by decide)
  exact ⟨⟨by decide, by decide⟩, h1.2.1 (by decide) (by decide), h2.2.2.1 (by decide)⟩

/-! ## C15: the feedback flag -/

/-- C15: `sUseFeedbackLed` is false after construction, true after
`enableLEDFeedback`, false after `disableLEDFeedback`, and has its former
value after `update`, after every run that returns of `delay`, `sendKeyPress`
(both overloads), `sendKeyStroke` (all three overloads) and `write`, and after
`usbFunctionSetup`; after `disableLEDFeedback` a character write makes no
write to the indicator, and it returns as soon as the driver becomes ready,
within the iteration bound, before each of the two reports. -/
theorem feedback_flag_changed_only_by_enable_and_disable (L : KeyLayout) (E : Env)
    (U : UsbDrv) (fuel : Nat) (s : Device) (hlen : s.reportBuffer.length = 8) :
    (∀ raw, (DigiKeyboardDevice raw).sUseFeedbackLed = false) ∧
    (enableLEDFeedback s).sUseFeedbackLed = true ∧
    (disableLEDFeedback s).sUseFeedbackLed = false ∧
    (update s).sUseFeedbackLed = s.sUseFeedbackLed ∧
    (∀ milli s', delay E fuel milli s = some s' → s'.sUseFeedbackLed = s.sUseFeedbackLed) ∧
    (∀ k m s', sendKeyPress_2 E fuel k m s = some s' →
      s'.sUseFeedbackLed = s.sUseFeedbackLed) ∧
    (∀ k s', sendKeyPress_1 E fuel k s = some s' → s'.sUseFeedbackLed = s.sUseFeedbackLed) ∧
    (∀ k m led s', sendKeyStroke_3 E fuel k m led s = some s' →
      s'.sUseFeedbackLed = s.sUseFeedbackLed) ∧
    (∀ k m s', sendKeyStroke_2 E fuel k m s = some s' →
      s'.sUseFeedbackLed = s.sUseFeedbackLed) ∧
    (∀ k s', sendKeyStroke_1 E fuel k s = some s' → s'.sUseFeedbackLed = s.sUseFeedbackLed) ∧
    (∀ chr r, write L E fuel chr s = some r → r.1.sUseFeedbackLed = s.sUseFeedbackLed) ∧
    (∀ data, (usbFunctionSetup U data s).1.sUseFeedbackLed = s.sUseFeedbackLed) ∧
    (∀ chr r, write L E fuel chr (disableLEDFeedback s) = some r →
      ledWrites (newEvents (disableLEDFeedback s) r.1) = []) ∧
    (∀ n1 n2, ReadyAfter E s.readyChecks n1 → n1 < fuel →
      ReadyAfter E (s.readyChecks + n1 + 1) n2 → n2 < fuel →
      ∀ chr, ∃ s', write L E fuel chr (disableLEDFeedback s) = some (s', 1)) := by
  have press : ∀ k m s', sendKeyPress_2 E fuel k m s = some s' →
      s'.sUseFeedbackLed = s.sUseFeedbackLed := by
    intro k m s' h
    obtain ⟨n, _, _, rfl⟩ := sendKeyPress_2_eq_some E fuel k m s s' hlen h
    rfl
  have stroke : ∀ k m led s', sendKeyStroke_3 E fuel k m led s = some s' →
      s'.sUseFeedbackLed = s.sUseFeedbackLed := by
    intro k m led s' h
    obtain ⟨n1, n2, _, _, _, _, rfl⟩ := sendKeyStroke_3_eq_some E fuel k m led s s' hlen h
    rfl
  refine ⟨fun raw => rfl, rfl, rfl, rfl, fun milli s' h => ?_, press,
    fun k s' h => press k 0 s' h, stroke, fun k m s' h => stroke k m false s' h,
    fun k s' h => stroke k 0 false s' h,
    fun chr r hw => (write_frame L E fuel chr s r hlen hw).1, fun data => ?_,
    fun chr r hw => ?_,
    fun n1 n2 hr1 hn1 hr2 hn2 chr =>
      write_returns L E fuel chr n1 n2 (disableLEDFeedback s) hlen hr1 hn1 hr2 hn2⟩
  · exact (delayLoop_frame E fuel _ _ _ s' h).1
  · unfold usbFunctionSetup
    simp only
    split_ifs <;> rfl
  · rw [write_ledWrites L E fuel chr (disableLEDFeedback s) r hlen hw]
    simp [disableLEDFeedback]

/-- C15, at a concrete input: on the fresh device, after `enableLEDFeedback()`
and then `disableLEDFeedback()`, `write('A')` with the modelled layout returns
with the flag still false and without a write to the indicator. -/
theorem feedback_flag_changed_only_by_enable_and_disable_witness :
    (enableLEDFeedback DigiKeyboard).reportBuffer.length = 8 ∧
    ∃ s', write specLayout alwaysReady 1 65
        (disableLEDFeedback (enableLEDFeedback DigiKeyboard)) = some (s', 1) ∧
      s'.sUseFeedbackLed = false ∧
      ledWrites (newEvents (disableLEDFeedback (enableLEDFeedback DigiKeyboard)) s') = [] := by
  have h := feedback_flag_changed_only_by_enable_and_disable specLayout alwaysReady
    hidRequestCodes 1 (enableLEDFeedback DigiKeyboard) (by decide)
  have h' := feedback_flag_changed_only_by_enable_and_disable specLayout alwaysReady
    hidRequestCodes 1 (disableLEDFeedback (enableLEDFeedback DigiKeyboard)) (by decide)
  obtain ⟨s', hs'⟩ := h.2.2.2.2.2.2.2.2.2.2.2.2.2 0 0 (readyAfter_alwaysReady _) (by decide)
    (readyAfter_alwaysReady _) (by decide) 65
  exact ⟨by decide, s', hs', h'.2.2.2.2.2.2.2.2.2.2.1 65 (s', 1) hs',
    h.2.2.2.2.2.2.2.2.2.2.2.2.1 65 (s', 1) hs'⟩

/-! ## C16: keycodes and modifiers stay in range -/

/-- C16: given that `KEYCODE_MASK_SCANCODE` and `KEY_NON_US_BS` are at most
101, every run of `write(chr)` that returns, for every character, has either
submitted nothing or submitted a key-down report and the idle report, where
the keycode in byte 2 is at most 101, being either at most
`KEYCODE_MASK_SCANCODE` or equal to `KEY_NON_US_BS`, and the modifier in
byte 0 has no bit outside the shift, right-alt and right-ctrl bits; 0..101 is
the logical range that the descriptor declares for the key array; and `write`
returns as soon as the driver becomes ready, within the iteration bound,
before each of the two reports. -/
theorem write_keycode_within_declared_range (L : KeyLayout) (E : Env) (fuel chr : Nat)
    (s : Device) (hlen : s.reportBuffer.length = 8)
    (hmask : L.KEYCODE_MASK_SCANCODE ≤ 101) (hbs : L.KEY_NON_US_BS ≤ 101) :
    (∀ r, write L E fuel chr s = some r →
      reports (newEvents s r.1) = [] ∨
      ∃ k m, SubmittedKeystroke s r.1 k m ∧ k ≤ 101 ∧
        (k ≤ L.KEYCODE_MASK_SCANCODE ∨ k = L.KEY_NON_US_BS) ∧
        m &&& ((L.MODIFIERKEY_SHIFT ||| L.MODIFIERKEY_RIGHT_ALT |||
          L.MODIFIERKEY_RIGHT_CTRL) % 256) = m) ∧
    (descriptorFields usbHidReportDescriptor).map
        (fun fs => fs[2]?.map (fun f => (f.logicalMinimum, f.logicalMaximum))) =
      some (some (0, 101)) ∧
    (∀ n1 n2, ReadyAfter E s.readyChecks n1 → n1 < fuel →
      ReadyAfter E (s.readyChecks + n1 + 1) n2 → n2 < fuel →
      ∃ s', write L E fuel chr s = some (s', 1)) := by
  refine ⟨fun r hw => ?_, by decide,
    fun n1 n2 hr1 hn1 hr2 hn2 => write_returns L E fuel chr n1 n2 s hlen hr1 hn1 hr2 hn2⟩
  by_cases hd : (writeData L E chr s).1 = 0
  · exact Or.inl (write_reports_of_unmapped L E fuel chr s r hd hw)
  · have hk := keycode_to_key_le L (writeData L E chr s).1 hmask hbs
    exact Or.inr ⟨_, _, write_submits_keystroke L E fuel chr s r hd hlen hw, hk.1, hk.2,
      keycode_to_modifier_bits L _ (writeData_fst_lt L E chr s)⟩

/-- C16, at a concrete input: with the modelled layout and erased flash behind
the table, `write(0xFF)` on the fresh device submits keycode 100 with modifier
`0x42`, inside the declared range. -/
theorem write_keycode_within_declared_range_witness :
    (DigiKeyboard.reportBuffer.length = 8 ∧ specLayout.KEYCODE_MASK_SCANCODE ≤ 101 ∧
      specLayout.KEY_NON_US_BS ≤ 101) ∧
    ∃ s', write specLayout alwaysReady 1 0xFF DigiKeyboard = some (s', 1) ∧
      (reports (newEvents DigiKeyboard s') = [] ∨
        ∃ k m, SubmittedKeystroke DigiKeyboard s' k m ∧ k ≤ 101 ∧
          (k ≤ specLayout.KEYCODE_MASK_SCANCODE ∨ k = specLayout.KEY_NON_US_BS) ∧
          m &&& ((specLayout.MODIFIERKEY_SHIFT ||| specLayout.MODIFIERKEY_RIGHT_ALT |||
            specLayout.MODIFIERKEY_RIGHT_CTRL) % 256) = m) := by
  have h := write_keycode_within_declared_range specLayout alwaysReady 1 0xFF DigiKeyboard
    (by decide) (by decide) (by decide)
  obtain ⟨s', hs'⟩ := h.2.2 0 0 (readyAfter_alwaysReady _) (by decide)
    (readyAfter_alwaysReady _) (by decide)
  exact ⟨⟨by decide, by decide, by decide⟩, s', hs', h.1 (s', 1) hs'⟩

/-! ## C17: the short overloads -/

/-- C17: for every device state and driver, `sendKeyStroke(k)` is
`sendKeyStroke(k, 0, false)`, `sendKeyStroke(k, m)` is
`sendKeyStroke(k, m, false)` and `sendKeyPress(k)` is `sendKeyPress(k, 0)`:
same result, hence same trace and final state; and the run of
`sendKeyStroke(k, m)` does not depend on the global feedback flag, which it
only carries along. -/
theorem short_overloads_are_full_operations_with_defaults (E : Env) (fuel k m : Nat)
    (s : Device) :
    sendKeyStroke_1 E fuel k s = sendKeyStroke_3 E fuel k 0 false s ∧
    sendKeyStroke_2 E fuel k m s = sendKeyStroke_3 E fuel k m false s ∧
    sendKeyPress_1 E fuel k s = sendKeyPress_2 E fuel k 0 s ∧
    (∀ b, sendKeyStroke_2 E fuel k m (withFeedbackLed b s) =
      (sendKeyStroke_3 E fuel k m false s).map (withFeedbackLed b)) := by
  refine ⟨rfl, rfl, rfl, fun b => ?_⟩
  unfold sendKeyStroke_2
  exact sendKeyStroke_3_false_withFeedbackLed E b fuel k m s

end DigisparkKeyboard
